import Mathlib

/-!
Verification of the ORE scripted-payoff engine (ored/scripting/scriptengine.cpp),
the exposure allocators (orea/aggregation/exposureallocator.cpp) and the CLI
driver (App/ore.cpp), against the repository's specification.

The script engine is embedded shallowly: `evalExpr` / `runStmt` mirror the
`ASTRunner` visitor case by case, with the value stack and the filter stack
carried explicitly in `EngineState`, exactly as the C++ runner keeps its two
`SafeStack`s.  Machine doubles are modelled by `ℚ` (so `close_enough` becomes
equality); QuantLib `Date`s by `Int` serial numbers.
-/

namespace ORE

/-- Rounding to the nearest integer, ties away from zero, mirroring C++
`std::lround` as applied to the exact values the scripts use. -/
def qround (q : ℚ) : Int :=
  if 0 ≤ q then ⌊q + 1/2⌋ else -⌊-q + 1/2⌋

/-- Modelled from the spec: a `Filter` is a sequence of boolean lanes of length
`n` with a deterministic-collapse representation (`.inl b` stores the common
value of all lanes, `.inr xs` the general lane vector).  The QuantExt
`Filter` class itself is not among the repository files staged under src/. -/
structure Filter where
  n : Nat
  rep : Sum Bool (List Bool)
deriving Repr, DecidableEq

namespace Filter

/-- `Filter(n, b)`: deterministic constructor. -/
def mkF (n : Nat) (b : Bool) : Filter := ⟨n, .inl b⟩

/-- `deterministic()`: whether the compact representation is in use. -/
def deterministic (f : Filter) : Bool := f.rep.isLeft

/-- The full lane vector (expanding a deterministic filter). -/
def lanes (f : Filter) : List Bool :=
  match f.rep with
  | .inl v => List.replicate f.n v
  | .inr xs => xs

/-- `operator[]` / `at`: lane access; a deterministic filter yields its common
value for every index. -/
def lane (f : Filter) (k : Nat) : Bool :=
  match f.rep with
  | .inl v => v
  | .inr xs => xs.getD k false

/-- Logical negation, preserving determinism. -/
def notF (f : Filter) : Filter :=
  match f.rep with
  | .inl v => ⟨f.n, .inl (!v)⟩
  | .inr xs => ⟨f.n, .inr (xs.map (fun b => !b))⟩

/-- Logical and: deterministic when both operands are. -/
def andF (a b : Filter) : Filter :=
  match a.rep, b.rep with
  | .inl x, .inl y => ⟨a.n, .inl (x && y)⟩
  | _, _ => ⟨a.n, .inr (List.zipWith (fun x y => x && y) a.lanes b.lanes)⟩

/-- Logical or: deterministic when both operands are. -/
def orF (a b : Filter) : Filter :=
  match a.rep, b.rep with
  | .inl x, .inl y => ⟨a.n, .inl (x || y)⟩
  | _, _ => ⟨a.n, .inr (List.zipWith (fun x y => x || y) a.lanes b.lanes)⟩

/-- `updateDeterministic()`: re-scan and collapse to the compact form when all
lanes coincide. -/
def updateDet (f : Filter) : Filter :=
  match f.rep with
  | .inl _ => f
  | .inr [] => f
  | .inr (x :: xs) => if xs.all (fun b => b == x) then ⟨f.n, .inl x⟩ else f

/-- Well-formedness: a general representation carries exactly `n` lanes. -/
def wf (f : Filter) : Prop := ∀ xs, f.rep = .inr xs → xs.length = f.n

end Filter

/-- Modelled from the spec: a `RandomVariable` is a sequence of rational lanes
of length `n` with the same deterministic-collapse representation, plus an
optional model-time tag.  The QuantExt `RandomVariable` class itself is not
among the repository files staged under src/. -/
structure RandomVariable where
  n : Nat
  rep : Sum ℚ (List ℚ)
  time : Option ℚ
deriving Repr, DecidableEq

namespace RandomVariable

/-- `RandomVariable(n, value)`: deterministic constructor (time tag unset). -/
def det (n : Nat) (v : ℚ) : RandomVariable := ⟨n, .inl v, none⟩

instance : Inhabited RandomVariable := ⟨det 0 0⟩

/-- `deterministic()`. -/
def deterministic (r : RandomVariable) : Bool := r.rep.isLeft

/-- The full lane vector (expanding a deterministic variable). -/
def lanes (r : RandomVariable) : List ℚ :=
  match r.rep with
  | .inl v => List.replicate r.n v
  | .inr xs => xs

/-- `at(k)`: lane access; a deterministic variable yields its common value. -/
def lane (r : RandomVariable) (k : Nat) : ℚ :=
  match r.rep with
  | .inl v => v
  | .inr xs => xs.getD k 0

/-- `set(k, v)`: a single-lane write demotes a deterministic variable to the
general representation. -/
def set (r : RandomVariable) (k : Nat) (v : ℚ) : RandomVariable :=
  ⟨r.n, .inr (r.lanes.set k v), r.time⟩

/-- `setTime`: replace the time tag. -/
def withTime (r : RandomVariable) (t : Option ℚ) : RandomVariable := ⟨r.n, r.rep, t⟩

/-- `updateDeterministic()`: collapse when all lanes coincide. -/
def updateDet (r : RandomVariable) : RandomVariable :=
  match r.rep with
  | .inl _ => r
  | .inr [] => r
  | .inr (x :: xs) => if xs.all (fun q => q == x) then ⟨r.n, .inl x, r.time⟩ else r

/-- Elementwise binary arithmetic, deterministic when both operands are; the
result's time tag is unset. -/
def binR (f : ℚ → ℚ → ℚ) (a b : RandomVariable) : RandomVariable :=
  match a.rep, b.rep with
  | .inl x, .inl y => ⟨a.n, .inl (f x y), none⟩
  | _, _ => ⟨a.n, .inr (List.zipWith f a.lanes b.lanes), none⟩

/-- Elementwise unary arithmetic. -/
def unR (f : ℚ → ℚ) (a : RandomVariable) : RandomVariable :=
  match a.rep with
  | .inl x => ⟨a.n, .inl (f x), none⟩
  | .inr xs => ⟨a.n, .inr (xs.map f), none⟩

/-- Elementwise comparison producing a `Filter`, deterministic when both
operands are (`close_enough` on doubles is exact equality on `ℚ`). -/
def cmpR (f : ℚ → ℚ → Bool) (a b : RandomVariable) : Filter :=
  match a.rep, b.rep with
  | .inl x, .inl y => ⟨a.n, .inl (f x y)⟩
  | _, _ => ⟨a.n, .inr (List.zipWith f a.lanes b.lanes)⟩

/-- `close_enough_all`: same size and all lanes pairwise close (exactly equal
over `ℚ`). -/
def close_enough_all (a b : RandomVariable) : Bool :=
  a.n == b.n && (List.range a.n).all (fun k => a.lane k == b.lane k)

/-- `conditionalResult(mask, x, y)`: the k-th lane is `x[k]` where the mask is
true and `y[k]` elsewhere; a deterministic mask selects a whole operand. -/
def conditionalResult (m : Filter) (x y : RandomVariable) : RandomVariable :=
  match m.rep with
  | .inl true => x
  | .inl false => y
  | .inr ms =>
      ⟨x.n, .inr ((List.range x.n).map (fun k => if ms.getD k false then x.lane k else y.lane k)),
        none⟩

end RandomVariable

/-- `ValueType`: the tagged variant the value stack carries. -/
inductive Value where
  | num (r : RandomVariable)
  | flt (f : Filter)
  | event (d : Int)
  | curr (c : String)
  | index (i : String)
  | daycounter (dc : String)
deriving Repr, DecidableEq

/-- One record of the cashflow `PayLog` (written by `logpay`). -/
structure PayLogEntry where
  amount : RandomVariable
  flt : Filter
  obs : Int
  pay : Int
  ccy : String
  legno : Int
  cftype : String
  slot : Int
deriving Repr, DecidableEq

/-- The pricing-model capability set the runner needs for the embedded nodes:
sample count, valuation date and the `pay` primitive. -/
structure Model where
  size : Nat
  referenceDate : Int
  payFn : RandomVariable → Int → Int → String → RandomVariable

/-- The externally supplied `Context`: named scalars and arrays plus the
constant and ignored name sets. -/
structure ScriptContext where
  scalars : List (String × Value)
  arrays : List (String × List Value)
  constants : List String
  ignoreAssignments : List String
deriving Repr, DecidableEq

/-- The runner's full state: the mutable `Context` together with the value
stack, the filter stack and the cashflow log. -/
structure EngineState where
  scalars : List (String × Value)
  arrays : List (String × List Value)
  constants : List String
  ignoreAssignments : List String
  value : List Value
  filter : List Filter
  paylog : List PayLogEntry
deriving Repr, DecidableEq

namespace EngineState

def pushVal (v : Value) (st : EngineState) : EngineState :=
  { st with value := v :: st.value }

def popVal (st : EngineState) : Except String (Value × EngineState) :=
  match st.value with
  | [] => .error "value stack is empty"
  | v :: rest => .ok (v, { st with value := rest })

def topFilter (st : EngineState) : Except String Filter :=
  match st.filter with
  | [] => .error "filter stack is empty"
  | f :: _ => .ok f

def pushFilter (f : Filter) (st : EngineState) : EngineState :=
  { st with filter := f :: st.filter }

def popFilter (st : EngineState) : Except String EngineState :=
  match st.filter with
  | [] => .error "filter stack is empty"
  | _ :: rest => .ok { st with filter := rest }

def lookupScalar (st : EngineState) (name : String) : Option Value :=
  st.scalars.lookup name

def lookupArray (st : EngineState) (name : String) : Option (List Value) :=
  st.arrays.lookup name

def setScalar (st : EngineState) (name : String) (v : Value) : EngineState :=
  { st with scalars := st.scalars.map (fun p => if p.1 == name then (p.1, v) else p) }

def setArrayElem (st : EngineState) (name : String) (i : Nat) (v : Value) : EngineState :=
  { st with arrays := st.arrays.map (fun p => if p.1 == name then (p.1, p.2.set i v) else p) }

def setArray (st : EngineState) (name : String) (vs : List Value) : EngineState :=
  { st with arrays := st.arrays.map (fun p => if p.1 == name then (p.1, vs) else p) }

end EngineState

open EngineState

/-- The payoff-DSL expression nodes embedded (`VariableNode` is split into its
scalar and subscripted uses). -/
inductive Expr where
  | constant (v : ℚ)
  | var (name : String)
  | varIdx (name : String) (ie : Expr)
  | add (a b : Expr)
  | sub (a b : Expr)
  | mul (a b : Expr)
  | div (a b : Expr)
  | neg (a : Expr)
  | eqE (a b : Expr)
  | neqE (a b : Expr)
  | ltE (a b : Expr)
  | leqE (a b : Expr)
  | gtE (a b : Expr)
  | geqE (a b : Expr)
  | notE (a : Expr)
  | andE (a b : Expr)
  | orE (a b : Expr)
  | sizeOp (name : String)
  | pay (amount obs payd ccy : Expr)
  | logpay (amount obs payd ccy : Expr)
deriving Repr

/-- Modelled from the spec: the `ValueType` arithmetic operators are defined
only on Number/Number (the ValueType operator overloads are not among the
staged files). -/
def numBinOp (f : ℚ → ℚ → ℚ) (x y : Value) : Except String Value :=
  match x, y with
  | .num a, .num b => .ok (.num (RandomVariable.binR f a b))
  | _, _ => .error "operation not supported for value types"

/-- Modelled from the spec: comparisons on Number/Number yield a `Filter`. -/
def numCmpOp (f : ℚ → ℚ → Bool) (x y : Value) : Except String Value :=
  match x, y with
  | .num a, .num b => .ok (.flt (RandomVariable.cmpR f a b))
  | _, _ => .error "operation not supported for value types"

/-- Unary minus on a `ValueType`: defined on Number only. -/
def valNeg (x : Value) : Except String Value :=
  match x with
  | .num r => .ok (.num (RandomVariable.unR (fun q => -q) r))
  | _ => .error "operation not supported for value types"

/-- `logicalNot` on a `ValueType`: defined on Filter only. -/
def valNot (x : Value) : Except String Value :=
  match x with
  | .flt f => .ok (.flt f.notF)
  | _ => .error "expected condition"

/-- `logicalAnd` on `ValueType`s: defined on Filter/Filter only. -/
def valAnd (x y : Value) : Except String Value :=
  match x, y with
  | .flt a, .flt b => .ok (.flt (a.andF b))
  | _, _ => .error "expected condition"

/-- `logicalOr` on `ValueType`s: defined on Filter/Filter only. -/
def valOr (x y : Value) : Except String Value :=
  match x, y with
  | .flt a, .flt b => .ok (.flt (a.orF b))
  | _, _ => .error "expected condition"

/-- The expression part of the `ASTRunner` visitor.  Each case mirrors the
corresponding `visit` in scriptengine.cpp: operands are evaluated onto the
value stack in textual order, popped in reverse, and the result is pushed. -/
def evalExpr (M : Model) : Expr → EngineState → Except String EngineState
  | .constant v, st => .ok (pushVal (.num (RandomVariable.det M.size v)) st)
  | .var name, st =>
      match lookupScalar st name with
      | some v => .ok (pushVal v st)
      | none =>
          match lookupArray st name with
          | some _ => .error ("array subscript required for variable " ++ name)
          | none => .error ("variable " ++ name ++ " is not defined.")
  | .varIdx name ie, st =>
      match lookupScalar st name with
      | some _ => .error ("no array subscript allowed for variable " ++ name)
      | none =>
          match lookupArray st name with
          | some arr => do
              let st1 ← evalExpr M ie st
              let (iv, st2) ← popVal st1
              match iv with
              | .num i =>
                  if i.deterministic then
                    let il := qround (i.lane 0)
                    if 1 ≤ il ∧ il ≤ arr.length then
                      .ok (pushVal (arr.getD (il - 1).toNat (.num (RandomVariable.det M.size 0))) st2)
                    else .error "array index out of bounds"
                  else .error "array subscript must be deterministic"
              | _ => .error "array subscript must be of type NUMBER"
          | none => .error ("variable " ++ name ++ " is not defined.")
  | .add a b, st => do
      let st1 ← evalExpr M a st
      let st2 ← evalExpr M b st1
      let (r, st3) ← popVal st2
      let (l, st4) ← popVal st3
      let v ← numBinOp (fun x y => x + y) l r
      .ok (pushVal v st4)
  | .sub a b, st => do
      let st1 ← evalExpr M a st
      let st2 ← evalExpr M b st1
      let (r, st3) ← popVal st2
      let (l, st4) ← popVal st3
      let v ← numBinOp (fun x y => x - y) l r
      .ok (pushVal v st4)
  | .mul a b, st => do
      let st1 ← evalExpr M a st
      let st2 ← evalExpr M b st1
      let (r, st3) ← popVal st2
      let (l, st4) ← popVal st3
      let v ← numBinOp (fun x y => x * y) l r
      .ok (pushVal v st4)
  | .div a b, st => do
      let st1 ← evalExpr M a st
      let st2 ← evalExpr M b st1
      let (r, st3) ← popVal st2
      let (l, st4) ← popVal st3
      let v ← numBinOp (fun x y => x / y) l r
      .ok (pushVal v st4)
  | .neg a, st => do
      let st1 ← evalExpr M a st
      let (x, st2) ← popVal st1
      let v ← valNeg x
      .ok (pushVal v st2)
  | .eqE a b, st => do
      let st1 ← evalExpr M a st
      let st2 ← evalExpr M b st1
      let (r, st3) ← popVal st2
      let (l, st4) ← popVal st3
      let v ← numCmpOp (fun x y => x == y) l r
      .ok (pushVal v st4)
  | .neqE a b, st => do
      let st1 ← evalExpr M a st
      let st2 ← evalExpr M b st1
      let (r, st3) ← popVal st2
      let (l, st4) ← popVal st3
      let v ← numCmpOp (fun x y => !(x == y)) l r
      .ok (pushVal v st4)
  | .ltE a b, st => do
      let st1 ← evalExpr M a st
      let st2 ← evalExpr M b st1
      let (r, st3) ← popVal st2
      let (l, st4) ← popVal st3
      let v ← numCmpOp (fun x y => decide (x < y)) l r
      .ok (pushVal v st4)
  | .leqE a b, st => do
      let st1 ← evalExpr M a st
      let st2 ← evalExpr M b st1
      let (r, st3) ← popVal st2
      let (l, st4) ← popVal st3
      let v ← numCmpOp (fun x y => decide (x ≤ y)) l r
      .ok (pushVal v st4)
  | .gtE a b, st => do
      let st1 ← evalExpr M a st
      let st2 ← evalExpr M b st1
      let (r, st3) ← popVal st2
      let (l, st4) ← popVal st3
      let v ← numCmpOp (fun x y => decide (y < x)) l r
      .ok (pushVal v st4)
  | .geqE a b, st => do
      let st1 ← evalExpr M a st
      let st2 ← evalExpr M b st1
      let (r, st3) ← popVal st2
      let (l, st4) ← popVal st3
      let v ← numCmpOp (fun x y => decide (y ≤ x)) l r
      .ok (pushVal v st4)
  | .notE a, st => do
      let st1 ← evalExpr M a st
      let (x, st2) ← popVal st1
      let v ← valNot x
      .ok (pushVal v st2)
  | .andE a b, st => do
      let st1 ← evalExpr M a st
      let (l, st2) ← popVal st1
      match l with
      | .flt lf =>
          if lf.deterministic = true ∧ lf.lane 0 = false then
            .ok (pushVal (.flt (Filter.mkF lf.n false)) st2)
          else do
            let st3 ← evalExpr M b st2
            let (r, st4) ← popVal st3
            let v ← valAnd (.flt lf) r
            .ok (pushVal v st4)
      | _ => .error "expected condition"
  | .orE a b, st => do
      let st1 ← evalExpr M a st
      let (l, st2) ← popVal st1
      match l with
      | .flt lf =>
          if lf.deterministic = true ∧ lf.lane 0 = true then
            .ok (pushVal (.flt (Filter.mkF lf.n true)) st2)
          else do
            let st3 ← evalExpr M b st2
            let (r, st4) ← popVal st3
            let v ← valOr (.flt lf) r
            .ok (pushVal v st4)
      | _ => .error "expected condition"
  | .sizeOp name, st =>
      match lookupArray st name with
      | some arr => .ok (pushVal (.num (RandomVariable.det M.size (arr.length : ℚ))) st)
      | none =>
          match lookupScalar st name with
          | some _ => .error ("SIZE can only be applied to array, " ++ name ++ " is a scalar")
          | none => .error ("variable " ++ name ++ " is not defined")
  | .pay amount obsE payd ccyE, st => do
      let st1 ← evalExpr M payd st
      let (pv, st2) ← popVal st1
      match pv with
      | .event pay =>
          if pay ≤ M.referenceDate then
            .ok (pushVal (.num (RandomVariable.det M.size 0)) st2)
          else do
            let st3 ← evalExpr M amount st2
            let st4 ← evalExpr M obsE st3
            let st5 ← evalExpr M ccyE st4
            let (cv, st6) ← popVal st5
            let (ov, st7) ← popVal st6
            let (av, st8) ← popVal st7
            match av with
            | .num a =>
                match ov with
                | .event obs =>
                    match cv with
                    | .curr pccy =>
                        if obs ≤ pay then
                          .ok (pushVal (.num (M.payFn a obs pay pccy)) st8)
                        else .error "observation date <= payment date required"
                    | _ => .error "paycurr must be CURRENCY"
                | _ => .error "obsdate must be EVENT"
            | _ => .error "amount must be NUMBER"
      | _ => .error "paydate must be EVENT"
  | .logpay amount obsE payd ccyE, st => do
      let st1 ← evalExpr M payd st
      let (pv, st2) ← popVal st1
      match pv with
      | .event pay => do
          let st3 ← evalExpr M amount st2
          let st4 ← evalExpr M obsE st3
          let st5 ← evalExpr M ccyE st4
          let (cv, st6) ← popVal st5
          let (ov, st7) ← popVal st6
          let (av, st8) ← popVal st7
          match av with
          | .num a =>
              match ov with
              | .event obs =>
                  match cv with
                  | .curr pccy =>
                      if obs ≤ pay then
                        let result := if pay ≤ M.referenceDate then RandomVariable.det M.size 0
                                      else M.payFn a obs pay pccy
                        let cashflowResult := if pay ≤ M.referenceDate then a else result
                        do
                          let flt ← topFilter st8
                          let st9 := { st8 with
                            paylog := st8.paylog ++ [⟨cashflowResult, flt, obs, pay, pccy, 0, "Unspecified", 0⟩] }
                          .ok (pushVal (.num result) st9)
                      else .error "observation date <= payment date required"
                  | _ => .error "paycurr must be CURRENCY"
              | _ => .error "obsdate must be EVENT"
          | _ => .error "amount must be NUMBER"
      | _ => .error "paydate must be EVENT"

/-- `getVariableRef` as used by the assignment visitor: the current value of
the named scalar or subscripted array element plus, for arrays, the resolved
0-based index (subscripts are evaluated through the value stack). -/
def resolveRef (M : Model) (name : String) (idx : Option Expr) (st : EngineState) :
    Except String (Value × Option Nat × EngineState) :=
  match lookupScalar st name with
  | some v =>
      match idx with
      | some _ => .error ("no array subscript allowed for variable " ++ name)
      | none => .ok (v, none, st)
  | none =>
      match lookupArray st name with
      | some arr =>
          match idx with
          | none => .error ("array subscript required for variable " ++ name)
          | some ie => do
              let st1 ← evalExpr M ie st
              let (iv, st2) ← popVal st1
              match iv with
              | .num i =>
                  if i.deterministic then
                    if 1 ≤ qround (i.lane 0) ∧ qround (i.lane 0) ≤ arr.length then
                      .ok (arr.getD (qround (i.lane 0) - 1).toNat (.num (RandomVariable.det M.size 0)),
                           some (qround (i.lane 0) - 1).toNat, st2)
                    else .error "array index out of bounds"
                  else .error "array subscript must be deterministic"
              | _ => .error "array subscript must be of type NUMBER"
      | none => .error ("variable " ++ name ++ " is not defined.")

/-- Modelled from the spec: `typeSafeAssign` for Event/Currency/Index targets —
under the current mask the right-hand side must match the target's current
value, otherwise the assignment is an error (the helper's code is not among
the staged files). -/
def typeSafeAssign (m : Filter) (cur right : Value) : Except String Value :=
  if (List.range m.n).any (fun k => m.lane k) then
    if cur == right then .ok cur else .error "type-safe assignment failed"
  else .ok cur

/-- The successive values of the `FOR` counter: start at `a` and step by `s`
while the C++ loop guard `(s > 0 && cl <= b) || (s < 0 && cl >= b)` holds. -/
def loopVals (a b s : Int) : List Int :=
  if h : (0 < s ∧ a ≤ b) ∨ (s < 0 ∧ b ≤ a) then
    a :: loopVals (a + s) b s
  else []
termination_by (if 0 < s then b + s - a else a - s - b).toNat
decreasing_by
  simp_wf
  rcases h with ⟨hs, hab⟩ | ⟨hs, hba⟩
  · rw [if_pos hs, if_pos hs]; omega
  · rw [if_neg (by omega), if_neg (by omega)]; omega

/-- Ascending insertion into a sorted list (the engine's `std::sort` on lane
values, realised as insertion sort). -/
def insertSorted (a : ℚ) : List ℚ → List ℚ
  | [] => [a]
  | b :: rest => if a ≤ b then a :: b :: rest else b :: insertSorted a rest

/-- Ascending sort of one lane's values across the array components. -/
def sortQ (l : List ℚ) : List ℚ := l.foldr insertSorted []

/-- Insertion for (value, 1-based component) pairs, ordered by value with the
component index breaking ties (one admissible outcome of the unstable
`std::sort` on the value-keyed comparator). -/
def insertSortedP (a : ℚ × Nat) : List (ℚ × Nat) → List (ℚ × Nat)
  | [] => [a]
  | b :: rest =>
      if a.1 < b.1 ∨ (a.1 = b.1 ∧ a.2 ≤ b.2) then a :: b :: rest else b :: insertSortedP a rest

/-- Sort of (value, component) pairs for the permutation-producing `SORT`. -/
def sortPairs (l : List (ℚ × Nat)) : List (ℚ × Nat) := l.foldr insertSortedP []

/-- Fetch a context array whose elements must all be Numbers (the x/y/p
gathering loops of the SORT and PERMUTE visitors): the per-element
`QL_REQUIRE(... which() == ValueTypeWhich::Number ...)` check. -/
def numOf : Value → Except String RandomVariable
  | .num r => .ok r
  | _ => .error "array element must be NUMBER"

/-- Gather a whole context array of Numbers. -/
def getNumArray (st : EngineState) (name : String) : Except String (List RandomVariable) :=
  match lookupArray st name with
  | none => .error ("did not find array with name " ++ name)
  | some vs => vs.mapM numOf

/-- Write a list of Numbers back into a context array. -/
def setNumArray (st : EngineState) (name : String) (rs : List RandomVariable) : EngineState :=
  setArray st name (rs.map Value.num)

/-- Gathering of an optional array argument (empty when absent). -/
def readOptArray (st : EngineState) : Option String → Except String (List RandomVariable)
  | none => .ok []
  | some pName => getNumArray st pName

/-- SORT's `if (y.empty()) y = x;`: when the gathered `y` vector is empty the
target is `x` itself (the C++ aliases the pointers, so writes then hit `x`'s
storage). -/
def sortTargets (x yRead : List RandomVariable) (xn : String) (yn : Option String) :
    List RandomVariable × String :=
  if yRead.isEmpty then (x, xn) else (yRead, yn.getD xn)

/-- PERMUTE's `if (p.empty()) { p = y; y = x; }`: with no gathered permutation
the roles shift — `y` becomes the permutation, `x` the target. Returns
(target vector, permutation vector, target name). -/
def permTargets (x yRead pRead : List RandomVariable) (xn : String) (yn : Option String) :
    List RandomVariable × List RandomVariable × String :=
  if pRead.isEmpty then (x, yRead, xn) else (yRead, pRead, yn.getD xn)

/-- One lane of the SORT visitor without a permutation target: on a
filter-true lane the component values are sorted and written into `y`. -/
def sortLane (x : List RandomVariable) (flt : Filter) (ys : List RandomVariable) (k : Nat) :
    List RandomVariable :=
  if flt.lane k then
    List.zipWith (fun yc v => yc.set k v) ys (sortQ (x.map (fun xc => xc.lane k)))
  else ys

/-- One lane of the SORT visitor with a permutation target: sorted values go
into `y`, the 1-based source components into `p`. -/
def sortLaneP (x : List RandomVariable) (flt : Filter)
    (yp : List RandomVariable × List RandomVariable) (k : Nat) :
    List RandomVariable × List RandomVariable :=
  if flt.lane k then
    (List.zipWith (fun yc pr => yc.set k pr.1) yp.1
       (sortPairs (x.enum.map (fun ci => (ci.2.lane k, ci.1 + 1)))),
     List.zipWith (fun pc pr => pc.set k ((pr.2 : ℚ))) yp.2
       (sortPairs (x.enum.map (fun ci => (ci.2.lane k, ci.1 + 1)))))
  else yp

/-- The SORT visitor: gather `x`, `y` (defaulting to `x`), optional `p`, check
the shape requirements, then process each lane under the active filter. -/
def sortImpl (xn : String) (yn pn : Option String) (st : EngineState) :
    Except String EngineState := do
  let x ← getNumArray st xn
  let yRead ← readOptArray st yn
  let p ← readOptArray st pn
  if x.length ≥ 1 then
    if (sortTargets x yRead xn yn).1.length = x.length then
      if p = [] ∨ p.length = x.length then
        if (List.range x.length).all (fun c =>
              ((x.getD c default).n == ((sortTargets x yRead xn yn).1.getD c default).n) &&
              (p.isEmpty || (x.getD c default).n == (p.getD c default).n)) then do
          let flt ← topFilter st
          if flt.n = (x.headD default).n then
            if p.isEmpty then
              .ok (setNumArray st (sortTargets x yRead xn yn).2
                ((List.range (x.headD default).n).foldl (sortLane x flt)
                  (sortTargets x yRead xn yn).1))
            else
              .ok (setNumArray
                (setNumArray st (sortTargets x yRead xn yn).2
                  ((List.range (x.headD default).n).foldl (sortLaneP x flt)
                    ((sortTargets x yRead xn yn).1, p)).1)
                (pn.getD xn)
                ((List.range (x.headD default).n).foldl (sortLaneP x flt)
                  ((sortTargets x yRead xn yn).1, p)).2)
          else .error "filter size must match array element size"
        else .error "array element sizes must match"
      else .error "p array size must match x array size"
    else .error "y array size must match x array size"
  else .error "array size must be >= 1"

/-- One lane of the PERMUTE visitor: on a filter-true lane each permutation
entry is bounds-checked and the permuted source values are written into `y`;
filter-false lanes are skipped entirely (no bounds check). -/
def permLaneVals (x p : List RandomVariable) (k : Nat) : List Nat → Except String (List ℚ)
  | [] => .ok []
  | c :: cs =>
      if 1 ≤ qround ((p.getD c default).lane k) ∧
          qround ((p.getD c default).lane k) ≤ x.length then do
        let rest ← permLaneVals x p k cs
        .ok ((x.getD (qround ((p.getD c default).lane k) - 1).toNat default).lane k :: rest)
      else .error "permuted index out of bounds"

def permuteLane (x p : List RandomVariable) (flt : Filter) (ycur : List RandomVariable)
    (k : Nat) : Except String (List RandomVariable) :=
  if flt.lane k then do
    let vals ← permLaneVals x p k (List.range x.length)
    pure (List.zipWith (fun yc v => yc.set k v) ycur vals)
  else pure ycur

/-- The PERMUTE visitor: gather `x`, optional `y` and `p`; when `p` is absent
the roles shift (`p ← y`, `y ← x`); check shapes, then permute lane by lane
under the active filter. -/
def permuteImpl (xn : String) (yn pn : Option String) (st : EngineState) :
    Except String EngineState := do
  let x ← getNumArray st xn
  let yRead ← readOptArray st yn
  let pRead ← readOptArray st pn
  if (permTargets x yRead pRead xn yn).1.length = x.length then
    if (permTargets x yRead pRead xn yn).2.1.length = x.length then
      if x.length ≥ 1 then
        if (List.range x.length).all (fun c =>
              ((x.getD c default).n == ((permTargets x yRead pRead xn yn).1.getD c default).n) &&
              ((x.getD c default).n ==
                ((permTargets x yRead pRead xn yn).2.1.getD c default).n)) then do
          let flt ← topFilter st
          if flt.n = (x.headD default).n then do
            let y2 ← (List.range (x.headD default).n).foldlM
              (permuteLane x (permTargets x yRead pRead xn yn).2.1 flt)
              (permTargets x yRead pRead xn yn).1
            .ok (setNumArray st (permTargets x yRead pRead xn yn).2.2 y2)
          else .error "filter size must match array element size"
        else .error "array element sizes must match"
      else .error "array size must be >= 1"
    else .error "p array size must match x array size"
  else .error "y array size must match x array size"

/-- The payoff-DSL statement nodes embedded (`SequenceNode` as binary
sequencing, `IfThenElseNode` split by presence of the ELSE branch, one
declaration per statement). -/
inductive Stmt where
  | seq (a b : Stmt)
  | assign (name : String) (idx : Option Expr) (rhs : Expr)
  | declScalar (name : String)
  | declArray (name : String) (sz : Expr)
  | ifThen (c : Expr) (t : Stmt)
  | ifThenElse (c : Expr) (t e : Stmt)
  | loop (name : String) (a b s : Expr) (body : Stmt)
  | requireS (c : Expr)
  | sort (x : String) (y p : Option String)
  | permute (x : String) (y p : Option String)
deriving Repr

mutual

/-- The statement part of the `ASTRunner` visitor, case by case after
scriptengine.cpp (assignment, declaration, REQUIRE, IF/ELSE with the
deterministic-false branch-skipping, FOR with the loop-variable checks,
SORT and PERMUTE). -/
def runStmt (M : Model) : Stmt → EngineState → Except String EngineState
  | .seq a b, st => do
      let st1 ← runStmt M a st
      runStmt M b st1
  | .assign name idx rhs, st => do
      let st1 ← evalExpr M rhs st
      let (right, st2) ← popVal st1
      if st2.ignoreAssignments.contains name then .ok st2
      else if st2.constants.contains name then
        .error ("can not assign to const variable " ++ name)
      else do
        let (cur, loc, st3) ← resolveRef M name idx st2
        match cur with
        | .event _ | .curr _ | .index _ => do
            let m ← topFilter st3
            let v ← typeSafeAssign m cur right
            match loc with
            | none => .ok (setScalar st3 name v)
            | some i => .ok (setArrayElem st3 name i v)
        | .num curRV =>
            match right with
            | .num rv => do
                let m ← topFilter st3
                let assigned :=
                  (RandomVariable.conditionalResult m rv (curRV.withTime none)).updateDet
                match loc with
                | none => .ok (setScalar st3 name (.num assigned))
                | some i => .ok (setArrayElem st3 name i (.num assigned))
            | _ => .error "invalid assignment"
        | _ => .error "internal error: expected NUMBER"
  | .declScalar name, st =>
      if st.ignoreAssignments.contains name then .ok st
      else if (lookupScalar st name).isSome ∨ (lookupArray st name).isSome then
        .error ("variable " ++ name ++ " already declared.")
      else .ok { st with scalars := st.scalars ++ [(name, .num (RandomVariable.det M.size 0))] }
  | .declArray name sz, st =>
      if st.ignoreAssignments.contains name then .ok st
      else if (lookupScalar st name).isSome ∨ (lookupArray st name).isSome then
        .error ("variable " ++ name ++ " already declared.")
      else do
        let st1 ← evalExpr M sz st
        let (v, st2) ← popVal st1
        match v with
        | .num arraySize =>
            if arraySize.deterministic then
              let l := qround (arraySize.lane 0)
              if 0 ≤ l then
                .ok { st2 with arrays :=
                  st2.arrays ++ [(name, List.replicate l.toNat (.num (RandomVariable.det M.size 0)))] }
              else .error "expected non-negative array size"
            else .error "array size definition requires deterministic argument"
        | _ => .error "expected NUMBER for array size definition"
  | .requireS c, st => do
      let st1 ← evalExpr M c st
      let (cv, st2) ← popVal st1
      match cv with
      | .flt cf => do
          let m ← topFilter st2
          let r := (m.notF.orF cf).updateDet
          if r.deterministic = true ∧ r.lane 0 = true then .ok st2
          else .error "required condition is not (always) fulfilled"
      | _ => .error "expected condition"
  | .ifThen c t, st => do
      let st1 ← evalExpr M c st
      let (cv, st2) ← popVal st1
      match cv with
      | .flt cond => do
          let baseFilter ← topFilter st2
          let st4 ← runGuarded M t
              (!(baseFilter.andF cond).updateDet.deterministic ||
                (baseFilter.andF cond).updateDet.lane 0)
              (pushFilter (baseFilter.andF cond).updateDet st2)
          popFilter st4
      | _ => .error "IF must be followed by a boolean"
  | .ifThenElse c t e, st => do
      let st1 ← evalExpr M c st
      let (cv, st2) ← popVal st1
      match cv with
      | .flt cond => do
          let baseFilter ← topFilter st2
          let st4 ← runGuarded M t
              (!(baseFilter.andF cond).updateDet.deterministic ||
                (baseFilter.andF cond).updateDet.lane 0)
              (pushFilter (baseFilter.andF cond).updateDet st2)
          let st5 ← popFilter st4
          let st7 ← runGuarded M e
              (!(baseFilter.andF cond.notF).updateDet.deterministic ||
                (baseFilter.andF cond.notF).updateDet.lane 0)
              (pushFilter (baseFilter.andF cond.notF).updateDet st5)
          popFilter st7
      | _ => .error "IF must be followed by a boolean"
  | .loop name aE bE sE body, st =>
      match lookupScalar st name with
      | none => .error ("loop variable " ++ name ++ " not defined or not scalar")
      | some _ =>
          if st.constants.contains name then
            .error ("loop variable " ++ name ++ " is constant")
          else do
            let st1 ← evalExpr M aE st
            let st2 ← evalExpr M bE st1
            let st3 ← evalExpr M sE st2
            let (stepv, st4) ← popVal st3
            let (rightv, st5) ← popVal st4
            let (leftv, st6) ← popVal st5
            match leftv with
            | .num a =>
                match rightv with
                | .num b =>
                    match stepv with
                    | .num s =>
                        if a.deterministic then
                          if b.deterministic then
                            if s.deterministic then
                              let al := qround (a.lane 0)
                              let bl := qround (b.lane 0)
                              let sl := qround (s.lane 0)
                              if sl ≠ 0 then
                                runLoopIter M name body (loopVals al bl sl) st6
                              else .error "loop step must be non-zero"
                            else .error "loop step must be deterministic"
                          else .error "second loop bound must be deterministic"
                        else .error "first loop bound must be deterministic"
                    | _ => .error "loop bounds and step must be of type NUMBER"
                | _ => .error "loop bounds and step must be of type NUMBER"
            | _ => .error "loop bounds and step must be of type NUMBER"
  | .sort x y p, st => sortImpl x y p st
  | .permute x y p, st => permuteImpl x y p st

/-- The guarded branch execution of the IF visitor: the branch body runs only
when the mask is non-deterministic or its first lane is true. -/
def runGuarded (M : Model) (t : Stmt) (g : Bool) (st : EngineState) :
    Except String EngineState :=
  if g then runStmt M t st else .ok st

/-- The iteration of the FOR visitor: for every counter value, set the loop
scalar to the deterministic counter, run the body, and verify the body left
the loop variable unchanged. -/
def runLoopIter (M : Model) (name : String) (body : Stmt) :
    List Int → EngineState → Except String EngineState
  | [], st => .ok st
  | cl :: rest, st => do
      let st1 := setScalar st name (.num (RandomVariable.det M.size (cl : ℚ)))
      let st2 ← runStmt M body st1
      match lookupScalar st2 name with
      | some (.num rv) =>
          if RandomVariable.close_enough_all rv (RandomVariable.det M.size (cl : ℚ)) then
            runLoopIter M name body rest st2
          else .error "loop variable was modified in body, this is illegal."
      | _ => .error "loop variable was modified in body, this is illegal."

end

/-- The default-constructed `RandomVariable` the runner pushes as the value
stack's sentinel (spec: a zero-variable). -/
def sentinel : RandomVariable := ⟨0, .inl 0, none⟩

/-- The `ASTRunner` constructor's state: the supplied context, a single
all-true filter of the model's size, the sentinel value, an empty pay log. -/
def initialState (M : Model) (ctx : ScriptContext) : EngineState :=
  ⟨ctx.scalars, ctx.arrays, ctx.constants, ctx.ignoreAssignments,
   [Value.num sentinel], [Filter.mkF M.size true], []⟩

/-- `ScriptEngine::run`: build the runner, visit the root, then require both
stacks to have size one. -/
def scriptEngineRun (M : Model) (ctx : ScriptContext) (root : Stmt) :
    Except String EngineState := do
  let st ← runStmt M root (initialState M ctx)
  if st.value.length = 1 then
    if st.filter.length = 1 then .ok st
    else .error "ScriptEngine::run(): filter stack has wrong size, should be 1"
  else .error "ScriptEngine::run(): value stack has wrong size, should be 1"

/-! ### Exposure allocators (orea/aggregation/exposureallocator.cpp)

A portfolio is a list of `(tradeId, nettingSetId, t0 NPV)` triples, in the
order `portfolio->ids()` enumerates them; the cube lookups
`nettedExposureCube_->get(nid, date, sample, index)` enter the formulas as
plain parameters (`netEPE`, `netENE`). -/

/-- One trade of the portfolio with its netting set and `npvCube->getT0` NPV. -/
structure TradeInfo where
  tradeId : String
  nettingSetId : String
  npvT0 : ℚ
deriving Repr, DecidableEq

/-- `tradeValueToday_[tid]` as filled by the allocator constructors. -/
def tradeValueToday (pf : List TradeInfo) (tid : String) : ℚ :=
  ((pf.find? (fun t => t.tradeId == tid)).map TradeInfo.npvT0).getD 0

/-- `nettingSetPositiveValueToday_[nid]`: the constructor adds each trade's
NPV to the positive bucket when `npv > 0`. -/
def nettingSetPositiveValueToday (pf : List TradeInfo) (nid : String) : ℚ :=
  (pf.filter (fun t => t.nettingSetId == nid)).foldl
    (fun acc t => if 0 < t.npvT0 then acc + t.npvT0 else acc) 0

/-- `nettingSetNegativeValueToday_[nid]`: the constructor adds each trade's
NPV to the negative bucket when `npv ≤ 0`. -/
def nettingSetNegativeValueToday (pf : List TradeInfo) (nid : String) : ℚ :=
  (pf.filter (fun t => t.nettingSetId == nid)).foldl
    (fun acc t => if 0 < t.npvT0 then acc else acc + t.npvT0) 0

/-- `nettingSetValueToday_[nid]` of the gross allocator: the plain NPV sum. -/
def nettingSetValueToday (pf : List TradeInfo) (nid : String) : ℚ :=
  (pf.filter (fun t => t.nettingSetId == nid)).foldl (fun acc t => acc + t.npvT0) 0

/-- `RelativeFairValueNetExposureAllocator::calculateAllocatedEpe`. -/
def relFairValueNetEpe (pf : List TradeInfo) (netEPE : ℚ) (tid nid : String) :
    Except String ℚ :=
  if 0 < nettingSetPositiveValueToday pf nid then
    .ok (netEPE * max (tradeValueToday pf tid) 0 / nettingSetPositiveValueToday pf nid)
  else .error "non-zero positive NPV expected"

/-- `RelativeFairValueNetExposureAllocator::calculateAllocatedEne`, exactly as
written: the guard reads the negative bucket but the division uses the
positive one. -/
def relFairValueNetEne (pf : List TradeInfo) (netENE : ℚ) (tid nid : String) :
    Except String ℚ :=
  if 0 < nettingSetNegativeValueToday pf nid then
    .ok (netENE * (-(max (-(tradeValueToday pf tid)) 0)) / nettingSetPositiveValueToday pf nid)
  else .error "non-zero negative NPV expected"

/-- `RelativeFairValueGrossExposureAllocator::calculateAllocatedEpe`. -/
def relFairValueGrossEpe (pf : List TradeInfo) (netEPE : ℚ) (tid nid : String) :
    Except String ℚ :=
  if nettingSetValueToday pf nid ≠ 0 then
    .ok (netEPE * tradeValueToday pf tid / nettingSetValueToday pf nid)
  else .error "non-zero netting set value expected"

/-- `RelativeFairValueGrossExposureAllocator::calculateAllocatedEne`. -/
def relFairValueGrossEne (pf : List TradeInfo) (netENE : ℚ) (tid nid : String) :
    Except String ℚ :=
  if nettingSetValueToday pf nid ≠ 0 then
    .ok (netENE * tradeValueToday pf tid / nettingSetValueToday pf nid)
  else .error "non-zero netting set value expected"

/-- `RelativeXvaExposureAllocator::calculateAllocatedEpe`: the division is
performed with no precondition on `nettingSetSumCva_[nid]`. -/
def relXvaEpe (tradeCva nettingSetSumCva : String → ℚ) (netEPE : ℚ) (tid nid : String) :
    Except String ℚ :=
  .ok (netEPE * tradeCva tid / nettingSetSumCva nid)

/-- `RelativeXvaExposureAllocator::calculateAllocatedEne`: likewise without a
precondition on `nettingSetSumDva_[nid]`. -/
def relXvaEne (tradeDva nettingSetSumDva : String → ℚ) (netENE : ℚ) (tid nid : String) :
    Except String ℚ :=
  .ok (netENE * tradeDva tid / nettingSetSumDva nid)

/-! ### The CLI driver (App/ore.cpp) -/

/-- `main` of App/ore.cpp reduced to its exit-code behaviour: `argv` includes
the program name, `body` stands for everything the surrounding `try` runs
(loading, valuation, reports).  A thrown exception is caught, printed, and
control falls through to the final `return 0`. -/
def oreMain (argv : List String) (body : Except String Unit) : Int :=
  if argv.length = 2 ∧ (argv.getD 1 "" = "-v" ∨ argv.getD 1 "" = "--version") then 0
  else if argv.length ≠ 2 then -1
  else
    match body with
    | .ok _ => 0
    | .error _ => 0

/-! ### Stack discipline of the runner -/

/-- Decomposition of a successful `Except` bind. -/
theorem bindE_ok {α β : Type} {x : Except String α} {f : α → Except String β} {b : β} :
    (x >>= f) = .ok b ↔ ∃ a, x = .ok a ∧ f a = .ok b := by
  cases x <;> simp [Bind.bind, Except.bind]

/-- A successful `pop` off the value stack removes exactly the top value. -/
theorem popVal_ok {st : EngineState} {v : Value} {st' : EngineState}
    (h : popVal st = .ok (v, st')) :
    st.value = v :: st'.value ∧ st'.filter = st.filter ∧ st'.scalars = st.scalars := by
  unfold EngineState.popVal at h
  split at h
  · exact absurd h (by simp)
  · rename_i a rest hv
    simp only [Except.ok.injEq, Prod.mk.injEq] at h
    obtain ⟨rfl, rfl⟩ := h
    simp [hv]

/-- The stack discipline of an expression visit: the filter stack is
untouched and exactly one value is pushed. -/
def StackShape (ev : EngineState → Except String EngineState) : Prop :=
  ∀ s s', ev s = .ok s' → s'.filter = s.filter ∧ ∃ w, s'.value = w :: s.value

/-- The shared shape of every `binaryOp` visit. -/
theorem binShape {ea eb : EngineState → Except String EngineState}
    {F : Value → Value → Except String Value} {st st' : EngineState}
    (h : (do
        let st1 ← ea st
        let st2 ← eb st1
        let (r, st3) ← popVal st2
        let (l, st4) ← popVal st3
        let v ← F l r
        Except.ok (pushVal v st4)) = .ok st')
    (ha : StackShape ea) (hb : StackShape eb) :
    st'.filter = st.filter ∧ ∃ w, st'.value = w :: st.value := by
  obtain ⟨st1, h1, h⟩ := bindE_ok.mp h
  obtain ⟨st2, h2, h⟩ := bindE_ok.mp h
  obtain ⟨⟨r, st3⟩, h3, h⟩ := bindE_ok.mp h
  obtain ⟨⟨l, st4⟩, h4, h⟩ := bindE_ok.mp h
  obtain ⟨v, h5, h⟩ := bindE_ok.mp h
  simp only [Except.ok.injEq] at h
  subst h
  obtain ⟨hf1, w1, hv1⟩ := ha _ _ h1
  obtain ⟨hf2, w2, hv2⟩ := hb _ _ h2
  obtain ⟨hp3, hf3, -⟩ := popVal_ok h3
  obtain ⟨hp4, hf4, -⟩ := popVal_ok h4
  rw [hv2, hv1] at hp3
  injection hp3 with hr h32
  rw [← h32] at hp4
  injection hp4 with hl h40
  refine ⟨by simp [pushVal, hf4, hf3, hf2, hf1], v, by simp [pushVal, ← h40]⟩

/-- The shared shape of every `unaryOp` visit. -/
theorem unShape {ea : EngineState → Except String EngineState}
    {F : Value → Except String Value} {st st' : EngineState}
    (h : (do
        let st1 ← ea st
        let (x, st2) ← popVal st1
        let v ← F x
        Except.ok (pushVal v st2)) = .ok st')
    (ha : StackShape ea) :
    st'.filter = st.filter ∧ ∃ w, st'.value = w :: st.value := by
  obtain ⟨st1, h1, h⟩ := bindE_ok.mp h
  obtain ⟨⟨x, st2⟩, h2, h⟩ := bindE_ok.mp h
  obtain ⟨v, h3, h⟩ := bindE_ok.mp h
  simp only [Except.ok.injEq] at h
  subst h
  obtain ⟨hf1, w1, hv1⟩ := ha _ _ h1
  obtain ⟨hp2, hf2, -⟩ := popVal_ok h2
  rw [hv1] at hp2
  injection hp2 with hx h20
  refine ⟨by simp [pushVal, hf2, hf1], v, by simp [pushVal, ← h20]⟩

/-- Pushing onto a state whose stacks match the base gives `StackShape`. -/
theorem push_shape {v : Value} {s base : EngineState}
    (hf : s.filter = base.filter) (hv : s.value = base.value) :
    (pushVal v s).filter = base.filter ∧ ∃ w, (pushVal v s).value = w :: base.value :=
  ⟨hf, v, by simp [pushVal, hv]⟩

/-- Every expression visit obeys the stack discipline: one value pushed, the
filter stack untouched. -/
theorem evalExpr_stack (M : Model) : ∀ (e : Expr), StackShape (evalExpr M e) := by
  intro e
  induction e with
  | constant v =>
      intro st st' h
      simp only [evalExpr, Except.ok.injEq] at h
      subst h
      exact push_shape rfl rfl
  | var name =>
      intro st st' h
      simp only [evalExpr] at h
      split at h
      · simp only [Except.ok.injEq] at h; subst h; exact push_shape rfl rfl
      · split at h <;> simp at h
  | varIdx name ie ih =>
      intro st st' h
      simp only [evalExpr] at h
      split at h
      · simp at h
      · split at h
        · obtain ⟨st1, h1, h⟩ := bindE_ok.mp h
          obtain ⟨⟨iv, st2⟩, h2, h⟩ := bindE_ok.mp h
          obtain ⟨hf1, w1, hv1⟩ := ih _ _ h1
          obtain ⟨hp2, hf2, -⟩ := popVal_ok h2
          rw [hv1] at hp2
          injection hp2 with hx h20
          split at h
          · split at h
            · split at h
              · simp only [Except.ok.injEq] at h; subst h
                exact push_shape (by simp [hf2, hf1]) h20.symm
              · simp at h
            · simp at h
          · simp at h
        · simp at h
  | add a b iha ihb => intro st st' h; simp only [evalExpr] at h; exact binShape h iha ihb
  | sub a b iha ihb => intro st st' h; simp only [evalExpr] at h; exact binShape h iha ihb
  | mul a b iha ihb => intro st st' h; simp only [evalExpr] at h; exact binShape h iha ihb
  | div a b iha ihb => intro st st' h; simp only [evalExpr] at h; exact binShape h iha ihb
  | eqE a b iha ihb => intro st st' h; simp only [evalExpr] at h; exact binShape h iha ihb
  | neqE a b iha ihb => intro st st' h; simp only [evalExpr] at h; exact binShape h iha ihb
  | ltE a b iha ihb => intro st st' h; simp only [evalExpr] at h; exact binShape h iha ihb
  | leqE a b iha ihb => intro st st' h; simp only [evalExpr] at h; exact binShape h iha ihb
  | gtE a b iha ihb => intro st st' h; simp only [evalExpr] at h; exact binShape h iha ihb
  | geqE a b iha ihb => intro st st' h; simp only [evalExpr] at h; exact binShape h iha ihb
  | neg a iha => intro st st' h; simp only [evalExpr] at h; exact unShape h iha
  | notE a iha => intro st st' h; simp only [evalExpr] at h; exact unShape h iha
  | andE a b iha ihb =>
      intro st st' h
      simp only [evalExpr] at h
      obtain ⟨st1, h1, h⟩ := bindE_ok.mp h
      obtain ⟨⟨l, st2⟩, h2, h⟩ := bindE_ok.mp h
      obtain ⟨hf1, w1, hv1⟩ := iha _ _ h1
      obtain ⟨hp2, hf2, -⟩ := popVal_ok h2
      rw [hv1] at hp2
      injection hp2 with hx h20
      split at h
      · split at h
        · simp only [Except.ok.injEq] at h; subst h
          exact push_shape (by simp [hf2, hf1]) h20.symm
        · obtain ⟨st3, h3, h⟩ := bindE_ok.mp h
          obtain ⟨⟨r, st4⟩, h4, h⟩ := bindE_ok.mp h
          obtain ⟨v, h5, h⟩ := bindE_ok.mp h
          simp only [Except.ok.injEq] at h
          subst h
          obtain ⟨hf3, w3, hv3⟩ := ihb _ _ h3
          obtain ⟨hp4, hf4, -⟩ := popVal_ok h4
          rw [hv3, ← h20] at hp4
          injection hp4 with hy h40
          exact ⟨by simp [pushVal, hf4, hf3, hf2, hf1], v, by simp [pushVal, ← h40]⟩
      · simp at h
  | orE a b iha ihb =>
      intro st st' h
      simp only [evalExpr] at h
      obtain ⟨st1, h1, h⟩ := bindE_ok.mp h
      obtain ⟨⟨l, st2⟩, h2, h⟩ := bindE_ok.mp h
      obtain ⟨hf1, w1, hv1⟩ := iha _ _ h1
      obtain ⟨hp2, hf2, -⟩ := popVal_ok h2
      rw [hv1] at hp2
      injection hp2 with hx h20
      split at h
      · split at h
        · simp only [Except.ok.injEq] at h; subst h
          exact push_shape (by simp [hf2, hf1]) h20.symm
        · obtain ⟨st3, h3, h⟩ := bindE_ok.mp h
          obtain ⟨⟨r, st4⟩, h4, h⟩ := bindE_ok.mp h
          obtain ⟨v, h5, h⟩ := bindE_ok.mp h
          simp only [Except.ok.injEq] at h
          subst h
          obtain ⟨hf3, w3, hv3⟩ := ihb _ _ h3
          obtain ⟨hp4, hf4, -⟩ := popVal_ok h4
          rw [hv3, ← h20] at hp4
          injection hp4 with hy h40
          exact ⟨by simp [pushVal, hf4, hf3, hf2, hf1], v, by simp [pushVal, ← h40]⟩
      · simp at h
  | sizeOp name =>
      intro st st' h
      simp only [evalExpr] at h
      split at h
      · simp only [Except.ok.injEq] at h; subst h; exact push_shape rfl rfl
      · split at h <;> simp at h
  | pay amount obsE payd ccyE ih1 ih2 ih3 ih4 =>
      intro st st' h
      simp only [evalExpr] at h
      obtain ⟨st1, h1, h⟩ := bindE_ok.mp h
      obtain ⟨⟨pv, st2⟩, h2, h⟩ := bindE_ok.mp h
      obtain ⟨hf1, w1, hv1⟩ := ih3 _ _ h1
      obtain ⟨hp2, hf2, -⟩ := popVal_ok h2
      rw [hv1] at hp2
      injection hp2 with hx h20
      split at h
      · split at h
        · simp only [Except.ok.injEq] at h; subst h
          exact push_shape (by simp [hf2, hf1]) h20.symm
        · obtain ⟨st3, h3, h⟩ := bindE_ok.mp h
          obtain ⟨st4, h4, h⟩ := bindE_ok.mp h
          obtain ⟨st5, h5, h⟩ := bindE_ok.mp h
          obtain ⟨⟨cv, st6⟩, h6, h⟩ := bindE_ok.mp h
          obtain ⟨⟨ov, st7⟩, h7, h⟩ := bindE_ok.mp h
          obtain ⟨⟨av, st8⟩, h8, h⟩ := bindE_ok.mp h
          obtain ⟨hf3, w3, hv3⟩ := ih1 _ _ h3
          obtain ⟨hf4, w4, hv4⟩ := ih2 _ _ h4
          obtain ⟨hf5, w5, hv5⟩ := ih4 _ _ h5
          obtain ⟨hp6, hf6, -⟩ := popVal_ok h6
          obtain ⟨hp7, hf7, -⟩ := popVal_ok h7
          obtain ⟨hp8, hf8, -⟩ := popVal_ok h8
          rw [hv5, hv4, hv3, ← h20] at hp6
          injection hp6 with hc h60
          rw [← h60] at hp7
          injection hp7 with ho h70
          rw [← h70] at hp8
          injection hp8 with ha h80
          split at h
          · split at h
            · split at h
              · split at h
                · simp only [Except.ok.injEq] at h; subst h
                  exact push_shape (by simp [hf8, hf7, hf6, hf5, hf4, hf3, hf2, hf1]) h80.symm
                · simp at h
              · simp at h
            · simp at h
          · simp at h
      · simp at h
  | logpay amount obsE payd ccyE ih1 ih2 ih3 ih4 =>
      intro st st' h
      simp only [evalExpr] at h
      obtain ⟨st1, h1, h⟩ := bindE_ok.mp h
      obtain ⟨⟨pv, st2⟩, h2, h⟩ := bindE_ok.mp h
      obtain ⟨hf1, w1, hv1⟩ := ih3 _ _ h1
      obtain ⟨hp2, hf2, -⟩ := popVal_ok h2
      rw [hv1] at hp2
      injection hp2 with hx h20
      split at h
      · obtain ⟨st3, h3, h⟩ := bindE_ok.mp h
        obtain ⟨st4, h4, h⟩ := bindE_ok.mp h
        obtain ⟨st5, h5, h⟩ := bindE_ok.mp h
        obtain ⟨⟨cv, st6⟩, h6, h⟩ := bindE_ok.mp h
        obtain ⟨⟨ov, st7⟩, h7, h⟩ := bindE_ok.mp h
        obtain ⟨⟨av, st8⟩, h8, h⟩ := bindE_ok.mp h
        obtain ⟨hf3, w3, hv3⟩ := ih1 _ _ h3
        obtain ⟨hf4, w4, hv4⟩ := ih2 _ _ h4
        obtain ⟨hf5, w5, hv5⟩ := ih4 _ _ h5
        obtain ⟨hp6, hf6, -⟩ := popVal_ok h6
        obtain ⟨hp7, hf7, -⟩ := popVal_ok h7
        obtain ⟨hp8, hf8, -⟩ := popVal_ok h8
        rw [hv5, hv4, hv3, ← h20] at hp6
        injection hp6 with hc h60
        rw [← h60] at hp7
        injection hp7 with ho h70
        rw [← h70] at hp8
        injection hp8 with ha h80
        split at h
        · split at h
          · split at h
            · split at h
              · obtain ⟨flt, h9, h⟩ := bindE_ok.mp h
                simp only [Except.ok.injEq] at h
                subst h
                exact push_shape (by simp [hf8, hf7, hf6, hf5, hf4, hf3, hf2, hf1]) (by simp [← h80])
              · simp at h
            · simp at h
          · simp at h
        · simp at h
      · simp at h

/-- A successful `pop` off the filter stack removes exactly the top filter. -/
theorem popFilter_ok {st st' : EngineState} (h : popFilter st = .ok st') :
    (∃ f, st.filter = f :: st'.filter) ∧ st'.value = st.value ∧ st'.scalars = st.scalars := by
  unfold EngineState.popFilter at h
  split at h
  · exact absurd h (by simp)
  · rename_i f rest hv
    simp only [Except.ok.injEq] at h
    subst h
    exact ⟨⟨f, by simp [hv]⟩, rfl, rfl⟩

/-- `getVariableRef` leaves both stacks as it found them. -/
theorem resolveRef_stack {M : Model} {name : String} {idx : Option Expr} {st : EngineState}
    {r : Value × Option Nat × EngineState}
    (h : resolveRef M name idx st = .ok r) :
    r.2.2.filter = st.filter ∧ r.2.2.value = st.value := by
  unfold resolveRef at h
  split at h
  · split at h
    · simp at h
    · simp only [Except.ok.injEq] at h
      subst h
      exact ⟨rfl, rfl⟩
  · split at h
    · split at h
      · simp at h
      · obtain ⟨st1, h1, h⟩ := bindE_ok.mp h
        obtain ⟨⟨iv, st2⟩, h2, h⟩ := bindE_ok.mp h
        obtain ⟨hf1, w1, hv1⟩ := evalExpr_stack M _ _ _ h1
        obtain ⟨hp2, hf2, -⟩ := popVal_ok h2
        rw [hv1] at hp2
        injection hp2 with hx h20
        repeat split at h
        any_goals exact Except.noConfusion h
        have hr := (Except.ok.inj h).symm
        subst hr
        refine ⟨?_, ?_⟩ <;> simp_all
    · simp at h

/-- The SORT visitor writes only to context arrays, never to the stacks. -/
theorem sortImpl_stack {xn : String} {yn pn : Option String} {st st' : EngineState}
    (h : sortImpl xn yn pn st = .ok st') :
    st'.filter = st.filter ∧ st'.value = st.value := by
  unfold sortImpl at h
  obtain ⟨x, h1, h⟩ := bindE_ok.mp h
  obtain ⟨yPair, h2, h⟩ := bindE_ok.mp h
  obtain ⟨p, h3, h⟩ := bindE_ok.mp h
  repeat split at h
  any_goals exact Except.noConfusion h
  all_goals obtain ⟨flt, h4, h⟩ := bindE_ok.mp h
  all_goals repeat split at h
  any_goals exact Except.noConfusion h
  all_goals have hr := (Except.ok.inj h).symm
  all_goals subst hr
  all_goals exact ⟨rfl, rfl⟩

/-- The PERMUTE visitor writes only to context arrays, never to the stacks. -/
theorem permuteImpl_stack {xn : String} {yn pn : Option String} {st st' : EngineState}
    (h : permuteImpl xn yn pn st = .ok st') :
    st'.filter = st.filter ∧ st'.value = st.value := by
  simp only [permuteImpl] at h
  obtain ⟨x, h1, h⟩ := bindE_ok.mp h
  obtain ⟨yRead, h2, h⟩ := bindE_ok.mp h
  obtain ⟨pRead, h3, h⟩ := bindE_ok.mp h
  repeat split at h
  any_goals exact Except.noConfusion h
  all_goals obtain ⟨flt, h4, h⟩ := bindE_ok.mp h
  all_goals repeat split at h
  any_goals exact Except.noConfusion h
  all_goals obtain ⟨y2, h5, h⟩ := bindE_ok.mp h
  all_goals have hr := (Except.ok.inj h).symm
  all_goals subst hr
  all_goals exact ⟨rfl, rfl⟩

/-- A guarded branch preserves whatever `runStmt` preserves. -/
theorem runGuarded_stack {M : Model} {t : Stmt} {g : Bool} {st st' : EngineState}
    (ih : ∀ s s', runStmt M t s = .ok s' → s'.filter = s.filter ∧ s'.value = s.value)
    (h : runGuarded M t g st = .ok st') :
    st'.filter = st.filter ∧ st'.value = st.value := by
  unfold runGuarded at h
  split at h
  · exact ih _ _ h
  · obtain rfl := Except.ok.inj h
    exact ⟨rfl, rfl⟩

/-- Every statement visit leaves the value stack and the filter stack exactly
as it found them: the engine's central stack invariant. -/
theorem runStmt_stack (M : Model) :
    ∀ (s : Stmt) (st st' : EngineState), runStmt M s st = .ok st' →
      st'.filter = st.filter ∧ st'.value = st.value := by
  intro s
  induction s with
  | seq a b iha ihb =>
      intro st st' h
      simp only [runStmt] at h
      obtain ⟨st1, h1, h⟩ := bindE_ok.mp h
      obtain ⟨hf1, hv1⟩ := iha _ _ h1
      obtain ⟨hf2, hv2⟩ := ihb _ _ h
      exact ⟨hf2.trans hf1, hv2.trans hv1⟩
  | assign name idx rhs =>
      intro st st' h
      simp only [runStmt] at h
      obtain ⟨st1, h1, h⟩ := bindE_ok.mp h
      obtain ⟨⟨right, st2⟩, h2, h⟩ := bindE_ok.mp h
      obtain ⟨hf1, w1, hv1⟩ := evalExpr_stack M _ _ _ h1
      obtain ⟨hp2, hf2, -⟩ := popVal_ok h2
      rw [hv1] at hp2
      injection hp2 with hx h20
      have base : st2.filter = st.filter ∧ st2.value = st.value := ⟨hf2.trans hf1, h20.symm⟩
      split at h
      · simp only [Except.ok.injEq] at h; subst h; exact base
      · split at h
        · simp at h
        · obtain ⟨⟨cur, loc, st3⟩, h3, h⟩ := bindE_ok.mp h
          obtain ⟨hf3, hv3⟩ := resolveRef_stack h3
          have base3 : st3.filter = st.filter ∧ st3.value = st.value :=
            ⟨hf3.trans base.1, hv3.trans base.2⟩
          split at h
          · obtain ⟨m, hm, h⟩ := bindE_ok.mp h
            obtain ⟨v, hv, h⟩ := bindE_ok.mp h
            split at h
            · simp only [Except.ok.injEq] at h; subst h
              simpa [setScalar] using base3
            · simp only [Except.ok.injEq] at h; subst h
              simpa [setArrayElem] using base3
          · obtain ⟨m, hm, h⟩ := bindE_ok.mp h
            obtain ⟨v, hv, h⟩ := bindE_ok.mp h
            split at h
            · simp only [Except.ok.injEq] at h; subst h
              simpa [setScalar] using base3
            · simp only [Except.ok.injEq] at h; subst h
              simpa [setArrayElem] using base3
          · obtain ⟨m, hm, h⟩ := bindE_ok.mp h
            obtain ⟨v, hv, h⟩ := bindE_ok.mp h
            split at h
            · simp only [Except.ok.injEq] at h; subst h
              simpa [setScalar] using base3
            · simp only [Except.ok.injEq] at h; subst h
              simpa [setArrayElem] using base3
          · split at h
            · obtain ⟨m, hm, h⟩ := bindE_ok.mp h
              split at h
              · simp only [Except.ok.injEq] at h; subst h
                simpa [setScalar] using base3
              · simp only [Except.ok.injEq] at h; subst h
                simpa [setArrayElem] using base3
            · simp at h
          · simp at h
  | declScalar name =>
      intro st st' h
      simp only [runStmt] at h
      split at h
      · simp only [Except.ok.injEq] at h; subst h; exact ⟨rfl, rfl⟩
      · split at h
        · simp at h
        · simp only [Except.ok.injEq] at h; subst h; exact ⟨rfl, rfl⟩
  | declArray name sz =>
      intro st st' h
      simp only [runStmt] at h
      split at h
      · simp only [Except.ok.injEq] at h; subst h; exact ⟨rfl, rfl⟩
      · split at h
        · simp at h
        · obtain ⟨st1, h1, h⟩ := bindE_ok.mp h
          obtain ⟨⟨v, st2⟩, h2, h⟩ := bindE_ok.mp h
          obtain ⟨hf1, w1, hv1⟩ := evalExpr_stack M _ _ _ h1
          obtain ⟨hp2, hf2, -⟩ := popVal_ok h2
          rw [hv1] at hp2
          injection hp2 with hx h20
          split at h
          · split at h
            · split at h
              · simp only [Except.ok.injEq] at h; subst h
                exact ⟨hf2.trans hf1, h20.symm⟩
              · simp at h
            · simp at h
          · simp at h
  | requireS c =>
      intro st st' h
      simp only [runStmt] at h
      obtain ⟨st1, h1, h⟩ := bindE_ok.mp h
      obtain ⟨⟨cv, st2⟩, h2, h⟩ := bindE_ok.mp h
      obtain ⟨hf1, w1, hv1⟩ := evalExpr_stack M _ _ _ h1
      obtain ⟨hp2, hf2, -⟩ := popVal_ok h2
      rw [hv1] at hp2
      injection hp2 with hx h20
      split at h
      · obtain ⟨m, hm, h⟩ := bindE_ok.mp h
        split at h
        · simp only [Except.ok.injEq] at h; subst h
          exact ⟨hf2.trans hf1, h20.symm⟩
        · simp at h
      · simp at h
  | ifThen c t ih =>
      intro st st' h
      simp only [runStmt] at h
      obtain ⟨st1, h1, h⟩ := bindE_ok.mp h
      obtain ⟨⟨cv, st2⟩, h2, h⟩ := bindE_ok.mp h
      obtain ⟨hf1, w1, hv1⟩ := evalExpr_stack M _ _ _ h1
      obtain ⟨hp2, hf2, -⟩ := popVal_ok h2
      rw [hv1] at hp2
      injection hp2 with hx h20
      split at h
      · obtain ⟨m, hm, h⟩ := bindE_ok.mp h
        obtain ⟨st4, h4, h⟩ := bindE_ok.mp h
        obtain ⟨h4f, h4v⟩ := runGuarded_stack ih h4
        obtain ⟨⟨f, hpf⟩, hpv, -⟩ := popFilter_ok h
        rw [h4f] at hpf
        simp only [pushFilter] at hpf
        injection hpf with hh htail
        constructor
        · rw [← htail, hf2, hf1]
        · rw [hpv, h4v]
          simpa [pushFilter] using h20.symm
      · simp at h
  | ifThenElse c t e iht ihe =>
      intro st st' h
      simp only [runStmt] at h
      obtain ⟨st1, h1, h⟩ := bindE_ok.mp h
      obtain ⟨⟨cv, st2⟩, h2, h⟩ := bindE_ok.mp h
      obtain ⟨hf1, w1, hv1⟩ := evalExpr_stack M _ _ _ h1
      obtain ⟨hp2, hf2, -⟩ := popVal_ok h2
      rw [hv1] at hp2
      injection hp2 with hx h20
      split at h
      · obtain ⟨m, hm, h⟩ := bindE_ok.mp h
        obtain ⟨st4, h4, h⟩ := bindE_ok.mp h
        obtain ⟨st5, h5, h⟩ := bindE_ok.mp h
        obtain ⟨h4f, h4v⟩ := runGuarded_stack iht h4
        obtain ⟨⟨f, hpf⟩, hpv, -⟩ := popFilter_ok h5
        rw [h4f] at hpf
        simp only [pushFilter] at hpf
        injection hpf with hh htail
        have h5f : st5.filter = st2.filter := htail.symm
        have h5v : st5.value = st2.value := by
          rw [hpv, h4v]; simp [pushFilter]
        obtain ⟨st7, h7, h⟩ := bindE_ok.mp h
        obtain ⟨h7f, h7v⟩ := runGuarded_stack ihe h7
        obtain ⟨⟨g, hpg⟩, hpv2, -⟩ := popFilter_ok h
        rw [h7f] at hpg
        simp only [pushFilter] at hpg
        injection hpg with hh2 htail2
        constructor
        · rw [← htail2, h5f, hf2, hf1]
        · rw [hpv2, h7v]
          simp only [pushFilter]
          rw [h5v, ← h20]
      · simp at h
  | loop name aE bE sE body ih =>
      intro st st' h
      simp only [runStmt] at h
      split at h
      · simp at h
      · split at h
        · simp at h
        · obtain ⟨st1, h1, h⟩ := bindE_ok.mp h
          obtain ⟨st2, h2, h⟩ := bindE_ok.mp h
          obtain ⟨st3, h3, h⟩ := bindE_ok.mp h
          obtain ⟨⟨stepv, st4⟩, h4, h⟩ := bindE_ok.mp h
          obtain ⟨⟨rightv, st5⟩, h5, h⟩ := bindE_ok.mp h
          obtain ⟨⟨leftv, st6⟩, h6, h⟩ := bindE_ok.mp h
          obtain ⟨hf1, w1, hv1⟩ := evalExpr_stack M _ _ _ h1
          obtain ⟨hf2, w2, hv2⟩ := evalExpr_stack M _ _ _ h2
          obtain ⟨hf3, w3, hv3⟩ := evalExpr_stack M _ _ _ h3
          obtain ⟨hp4, hf4, -⟩ := popVal_ok h4
          obtain ⟨hp5, hf5, -⟩ := popVal_ok h5
          obtain ⟨hp6, hf6, -⟩ := popVal_ok h6
          rw [hv3, hv2, hv1] at hp4
          injection hp4 with hs4 h40
          rw [← h40] at hp5
          injection hp5 with hs5 h50
          rw [← h50] at hp6
          injection hp6 with hs6 h60
          have base : st6.filter = st.filter ∧ st6.value = st.value :=
            ⟨hf6.trans (hf5.trans (hf4.trans (hf3.trans (hf2.trans hf1)))), h60.symm⟩
          have iter : ∀ (vals : List Int) (s0 s1 : EngineState),
              runLoopIter M name body vals s0 = .ok s1 →
              s1.filter = s0.filter ∧ s1.value = s0.value := by
            intro vals
            induction vals with
            | nil =>
                intro s0 s1 hh
                simp only [runLoopIter, Except.ok.injEq] at hh
                subst hh
                exact ⟨rfl, rfl⟩
            | cons cl rest ihv =>
                intro s0 s1 hh
                simp only [runLoopIter] at hh
                obtain ⟨sa, ha, hh⟩ := bindE_ok.mp hh
                obtain ⟨hfa, hva⟩ := ih _ _ ha
                split at hh
                · split at hh
                  · obtain ⟨hfb, hvb⟩ := ihv _ _ hh
                    refine ⟨hfb.trans (hfa.trans ?_), hvb.trans (hva.trans ?_)⟩
                    · simp [setScalar]
                    · simp [setScalar]
                  · simp at hh
                · simp at hh
          repeat split at h
          any_goals exact Except.noConfusion h
          obtain ⟨hfL, hvL⟩ := iter _ _ _ h
          exact ⟨hfL.trans base.1, hvL.trans base.2⟩
  | sort x y p =>
      intro st st' h
      simp only [runStmt] at h
      exact sortImpl_stack h
  | permute x y p =>
      intro st st' h
      simp only [runStmt] at h
      exact permuteImpl_stack h

/-! ### Claims on the allocators and the CLI -/

/-- The negative bucket only ever receives non-positive contributions. -/
theorem nettingSetNegativeValueToday_nonpos (pf : List TradeInfo) (nid : String) :
    nettingSetNegativeValueToday pf nid ≤ 0 := by
  unfold nettingSetNegativeValueToday
  generalize pf.filter (fun t => t.nettingSetId == nid) = l
  suffices hgen : ∀ (l : List TradeInfo) (acc : ℚ), acc ≤ 0 →
      l.foldl (fun acc t => if 0 < t.npvT0 then acc else acc + t.npvT0) acc ≤ 0 by
    exact hgen l 0 le_rfl
  intro l
  induction l with
  | nil => intro acc h; simpa using h
  | cons t rest ih =>
      intro acc h
      simp only [List.foldl_cons]
      split
      · exact ih acc h
      · rename_i hnp
        exact ih _ (by linarith [not_lt.mp hnp])

/-- C6: the RelativeFairValueNet ENE allocation can never succeed: its guard
requires the netting set's negative-NPV bucket to be strictly positive, but
that bucket is a sum of non-positive contributions, so every call reports the
guard's error (and the division it guards uses the positive bucket anyway).
The claim's ENE formula is therefore unimplementable by this code. -/
theorem claim_C6 :
    ∀ (pf : List TradeInfo) (netENE : ℚ) (tid nid : String),
      relFairValueNetEne pf netENE tid nid = .error "non-zero negative NPV expected" := by
  intro pf netENE tid nid
  unfold relFairValueNetEne
  rw [if_neg]
  exact not_lt.mpr (nettingSetNegativeValueToday_nonpos pf nid)

/-- C7 counterexample: the RelativeXVA allocator divides by the netting set's
CVA sum without any precondition: with the sum equal to zero it still returns
a value (`.ok`), it does not report an error. -/
theorem claim_C7_cex :
    relXvaEpe (fun _ => 3) (fun _ => 0) 5 "t1" "n1" = .ok 0 := by
  unfold relXvaEpe
  norm_num

/-- C7 (amended): RelativeFairValueGross and RelativeFairValueNet guard their
divisions with precondition checks that report an error on a degenerate
denominator, but RelativeXVA performs its division unchecked and always
returns `.ok`. -/
theorem claim_C7 :
    (∀ (pf : List TradeInfo) (netEPE : ℚ) (tid nid : String),
       nettingSetValueToday pf nid = 0 →
       relFairValueGrossEpe pf netEPE tid nid = .error "non-zero netting set value expected") ∧
    (∀ (pf : List TradeInfo) (netENE : ℚ) (tid nid : String),
       nettingSetValueToday pf nid = 0 →
       relFairValueGrossEne pf netENE tid nid = .error "non-zero netting set value expected") ∧
    (∀ (pf : List TradeInfo) (netEPE : ℚ) (tid nid : String),
       nettingSetPositiveValueToday pf nid ≤ 0 →
       relFairValueNetEpe pf netEPE tid nid = .error "non-zero positive NPV expected") ∧
    (∀ (tradeCva nettingSetSumCva : String → ℚ) (netEPE : ℚ) (tid nid : String),
       relXvaEpe tradeCva nettingSetSumCva netEPE tid nid =
         .ok (netEPE * tradeCva tid / nettingSetSumCva nid)) ∧
    (∀ (tradeDva nettingSetSumDva : String → ℚ) (netENE : ℚ) (tid nid : String),
       relXvaEne tradeDva nettingSetSumDva netENE tid nid =
         .ok (netENE * tradeDva tid / nettingSetSumDva nid)) := by
  refine ⟨?_, ?_, ?_, ?_, ?_⟩
  · intro pf netEPE tid nid h
    unfold relFairValueGrossEpe
    rw [if_neg]
    simp [h]
  · intro pf netENE tid nid h
    unfold relFairValueGrossEne
    rw [if_neg]
    simp [h]
  · intro pf netEPE tid nid h
    unfold relFairValueNetEpe
    rw [if_neg]
    exact not_lt.mpr h
  · intro tradeCva nettingSetSumCva netEPE tid nid
    rfl
  · intro tradeDva nettingSetSumDva netENE tid nid
    rfl

/-- C7 witness: the three behaviours at concrete inputs — a gross allocation
over a netting set whose NPVs cancel reports the error, a net allocation with
no positive NPV reports the error, and a RelativeXVA allocation with a zero
CVA sum silently returns a number. -/
theorem claim_C7_witness :
    relFairValueGrossEpe [⟨"t1", "n1", 3⟩, ⟨"t2", "n1", -3⟩] 5 "t1" "n1" =
      .error "non-zero netting set value expected" ∧
    relFairValueNetEpe [⟨"t1", "n1", -2⟩] 5 "t1" "n1" =
      .error "non-zero positive NPV expected" ∧
    relXvaEpe (fun _ => 3) (fun _ => 0) 5 "t1" "n1" = .ok (5 * 3 / 0) := by
  refine ⟨claim_C7.1 _ 5 "t1" "n1" ?_, claim_C7.2.2.1 _ 5 "t1" "n1" ?_,
    claim_C7.2.2.2.1 _ _ 5 "t1" "n1"⟩
  · norm_num [nettingSetValueToday, List.filter]
  · norm_num [nettingSetPositiveValueToday, List.filter]

/-- C8 counterexample: a run that ends in an unrecoverable failure (the body
throws) still exits with code 0 — `main` catches the exception, prints it, and
falls through to `return 0`; the claimed nonzero exit code never happens. -/
theorem claim_C8_cex :
    oreMain ["ore", "ore.xml"] (.error "unrecoverable failure") = 0 := by
  decide

/-- C8 (amended): the CLI exits 0 on normal completion, −1 when invoked with
the wrong number of arguments, and also 0 — not nonzero — when the run ends in
a caught unrecoverable failure. -/
theorem claim_C8 :
    (∀ (argv : List String) (body : Except String Unit),
       argv.length = 2 → oreMain argv body = 0) ∧
    (∀ (argv : List String) (body : Except String Unit),
       argv.length ≠ 2 → oreMain argv body = -1) := by
  constructor
  · intro argv body h2
    unfold oreMain
    split
    · rfl
    · rw [if_neg (by simp [h2])]
      cases body <;> rfl
  · intro argv body h2
    unfold oreMain
    rw [if_neg (by simp [h2]), if_pos h2]

/-- C8 witness: concrete invocations — a normal run exits 0, a failed run also
exits 0, a missing argument exits −1, and `-v` exits 0. -/
theorem claim_C8_witness :
    oreMain ["ore", "ore.xml"] (.ok ()) = 0 ∧
    oreMain ["ore"] (.ok ()) = -1 ∧
    oreMain ["ore", "-v"] (.ok ()) = 0 := by
  refine ⟨claim_C8.1 _ _ (by decide), claim_C8.2 _ _ (by decide), claim_C8.1 _ _ (by decide)⟩

/-! ### Claims on the pay node -/

/-- A pure evaluation step: from state `s` the expression pushes the fixed
value `v` and changes nothing else, whatever `pay` primitive the model
carries (so in particular the evaluation itself never calls `pay`). -/
def PureAt (M : Model) (e : Expr) (v : Value) (s : EngineState) : Prop :=
  ∀ g : RandomVariable → Int → Int → String → RandomVariable,
    evalExpr { M with payFn := g } e s = .ok (pushVal v s)

theorem popVal_push (v : Value) (st : EngineState) : popVal (pushVal v st) = .ok (v, st) := rfl

/-- C2: with `payHelper`'s four arguments evaluating (purely) to amount `a`,
observation date `o`, payment date `d` and currency `c`: when `d` is on or
before the model's reference date the node pushes the deterministic zero
RandomVariable of size N — for every `pay` primitive `g`, so the primitive is
not invoked and the amount/obs/currency results are discarded; when `d` is in
the future the node requires `o ≤ d` and pushes `model.pay(a, o, d, c)`. -/
theorem claim_C2 (M : Model) (amt obsE payd ccyE : Expr) (st : EngineState)
    (d : Int) (a : RandomVariable) (o : Int) (c : String)
    (hp : PureAt M payd (.event d) st)
    (ha : PureAt M amt (.num a) st)
    (ho : PureAt M obsE (.event o) (pushVal (.num a) st))
    (hc : PureAt M ccyE (.curr c) (pushVal (.event o) (pushVal (.num a) st))) :
    (d ≤ M.referenceDate →
       ∀ g, evalExpr { M with payFn := g } (.pay amt obsE payd ccyE) st =
         .ok (pushVal (.num (RandomVariable.det M.size 0)) st)) ∧
    (M.referenceDate < d → o ≤ d →
       evalExpr M (.pay amt obsE payd ccyE) st =
         .ok (pushVal (.num (M.payFn a o d c)) st)) ∧
    (M.referenceDate < d → d < o →
       evalExpr M (.pay amt obsE payd ccyE) st =
         .error "observation date <= payment date required") := by
  refine ⟨?_, ?_, ?_⟩
  · intro hd g
    have hp' := hp g
    simp only [evalExpr, hp', Bind.bind, Except.bind, popVal_push]
    rw [if_pos hd]
  · intro hd ho2
    have hp' : evalExpr M payd st = .ok (pushVal (.event d) st) := hp M.payFn
    have ha' : evalExpr M amt st = .ok (pushVal (.num a) st) := ha M.payFn
    have ho' : evalExpr M obsE (pushVal (.num a) st) =
        .ok (pushVal (.event o) (pushVal (.num a) st)) := ho M.payFn
    have hc' : evalExpr M ccyE (pushVal (.event o) (pushVal (.num a) st)) =
        .ok (pushVal (.curr c) (pushVal (.event o) (pushVal (.num a) st))) := hc M.payFn
    simp only [evalExpr, hp', ha', ho', hc', Bind.bind, Except.bind, popVal_push]
    rw [if_neg (by omega), if_pos ho2]
  · intro hd ho2
    have hp' : evalExpr M payd st = .ok (pushVal (.event d) st) := hp M.payFn
    have ha' : evalExpr M amt st = .ok (pushVal (.num a) st) := ha M.payFn
    have ho' : evalExpr M obsE (pushVal (.num a) st) =
        .ok (pushVal (.event o) (pushVal (.num a) st)) := ho M.payFn
    have hc' : evalExpr M ccyE (pushVal (.event o) (pushVal (.num a) st)) =
        .ok (pushVal (.curr c) (pushVal (.event o) (pushVal (.num a) st))) := hc M.payFn
    simp only [evalExpr, hp', ha', ho', hc', Bind.bind, Except.bind, popVal_push]
    rw [if_neg (by omega), if_neg (by omega)]

/-- A concrete model for witnesses: two samples, reference date 100, a `pay`
primitive returning the amount unchanged. -/
def wModel : Model := ⟨2, 100, fun a _ _ _ => a⟩

/-- A concrete context for witnesses: an observation date, a past payment
date and a currency. -/
def wCtx : ScriptContext := ⟨[("d", .event 50), ("o", .event 40), ("c", .curr "USD")], [], [], []⟩

/-- The witness state: the engine's initial state over `wModel` and `wCtx`. -/
def wSt : EngineState := initialState wModel wCtx

theorem claim_C2_witness :
    evalExpr { wModel with payFn := fun a _ _ _ => a }
        (.pay (.constant 7) (.var "o") (.var "d") (.var "c")) wSt =
      .ok (pushVal (.num (RandomVariable.det 2 0)) wSt) :=
  (claim_C2 wModel (.constant 7) (.var "o") (.var "d") (.var "c") wSt
      50 (RandomVariable.det 2 7) 40 "USD"
      (fun _ => rfl) (fun _ => rfl) (fun _ => rfl) (fun _ => rfl)).1
    (by decide) (fun a _ _ _ => a)

/-- C9: for a `pay` node whose payment date is on or before the reference
date, the amount, observation-date and currency subexpressions are never
evaluated — the node succeeds with the deterministic zero whatever those
subexpressions are, even ones whose evaluation would fail; for `logpay` the
arguments are always evaluated, so a failing amount propagates its error. -/
theorem claim_C9 (M : Model) (payd : Expr) (st : EngineState) (d : Int)
    (hp : PureAt M payd (.event d) st) (hd : d ≤ M.referenceDate) :
    (∀ amt obsE ccyE, evalExpr M (.pay amt obsE payd ccyE) st =
       .ok (pushVal (.num (RandomVariable.det M.size 0)) st)) ∧
    (∀ amt obsE ccyE msg, evalExpr M amt st = .error msg →
       evalExpr M (.logpay amt obsE payd ccyE) st = .error msg) := by
  have hp' : evalExpr M payd st = .ok (pushVal (.event d) st) := hp M.payFn
  constructor
  · intro amt obsE ccyE
    simp only [evalExpr, hp', Bind.bind, Except.bind, popVal_push]
    rw [if_pos hd]
  · intro amt obsE ccyE msg hamt
    simp only [evalExpr, hp', hamt, Bind.bind, Except.bind, popVal_push]

theorem claim_C9_witness :
    evalExpr wModel (.pay (.var "nope") (.var "nope") (.var "d") (.var "nope")) wSt =
      .ok (pushVal (.num (RandomVariable.det 2 0)) wSt) ∧
    evalExpr wModel (.logpay (.var "nope") (.var "o") (.var "d") (.var "c")) wSt =
      .error "variable nope is not defined." :=
  ⟨(claim_C9 wModel (.var "d") wSt 50 (fun _ => rfl) (by decide)).1 _ _ _,
   (claim_C9 wModel (.var "d") wSt 50 (fun _ => rfl) (by decide)).2 _ _ _ _ rfl⟩

/-! ### Claim on IF/ELSE branch masking -/

theorem topFilter_cons {st : EngineState} {m : Filter} {rest : List Filter}
    (hm : st.filter = m :: rest) : topFilter st = .ok m := by
  unfold EngineState.topFilter
  rw [hm]

theorem popFilter_push (f : Filter) (st : EngineState) :
    popFilter (pushFilter f st) = .ok st := rfl

/-- C3: for `IF c THEN t [ELSE e]` with condition evaluating to `c` under top
mask `m`: the engine pushes the mask `m ∧ c` (after `updateDeterministic`)
and runs the THEN branch exactly when that mask is non-deterministic or its
first lane is true; under a deterministic-false mask the THEN branch is never
evaluated — the statement succeeds unchanged for every branch body, in
particular for `REQUIRE(0 == 1)`; with an ELSE branch the same rule is
applied with the mask `m ∧ ¬c`. -/
theorem claim_C3 (M : Model) (cond : Expr) (st : EngineState)
    (c m : Filter) (rest : List Filter)
    (hc : evalExpr M cond st = .ok (pushVal (.flt c) st))
    (hm : st.filter = m :: rest) :
    (∀ t, runStmt M (.ifThen cond t) st =
       (runGuarded M t
          (!(m.andF c).updateDet.deterministic || (m.andF c).updateDet.lane 0)
          (pushFilter (m.andF c).updateDet st)) >>= popFilter) ∧
    ((m.andF c).updateDet.deterministic = true → (m.andF c).updateDet.lane 0 = false →
       ∀ t, runStmt M (.ifThen cond t) st = .ok st) ∧
    ((m.andF c).updateDet.deterministic = true → (m.andF c).updateDet.lane 0 = false →
       runStmt M (.ifThen cond (.requireS (.eqE (.constant 0) (.constant 1)))) st = .ok st) ∧
    (∀ t e, runStmt M (.ifThenElse cond t e) st =
       (runGuarded M t
          (!(m.andF c).updateDet.deterministic || (m.andF c).updateDet.lane 0)
          (pushFilter (m.andF c).updateDet st)) >>= fun st4 =>
        popFilter st4 >>= fun st5 =>
        (runGuarded M e
          (!(m.andF c.notF).updateDet.deterministic || (m.andF c.notF).updateDet.lane 0)
          (pushFilter (m.andF c.notF).updateDet st5)) >>= popFilter) := by
  have hone : ∀ t, runStmt M (.ifThen cond t) st =
      (runGuarded M t
        (!(m.andF c).updateDet.deterministic || (m.andF c).updateDet.lane 0)
        (pushFilter (m.andF c).updateDet st)) >>= popFilter := by
    intro t
    simp only [runStmt, hc, Bind.bind, Except.bind, popVal_push, topFilter_cons hm]
  have hskip : (m.andF c).updateDet.deterministic = true →
      (m.andF c).updateDet.lane 0 = false →
      ∀ t, runStmt M (.ifThen cond t) st = .ok st := by
    intro hdet hlane t
    rw [hone t]
    unfold runGuarded
    rw [if_neg (by simp [hdet, hlane])]
    simp only [Bind.bind, Except.bind, popFilter_push]
  refine ⟨hone, hskip, fun hdet hlane => hskip hdet hlane _, ?_⟩
  intro t e
  simp only [runStmt, hc, Bind.bind, Except.bind, popVal_push, topFilter_cons hm]

theorem claim_C3_witness :
    runStmt wModel
      (.ifThen (.eqE (.constant 0) (.constant 1))
        (.requireS (.eqE (.constant 0) (.constant 1)))) wSt = .ok wSt :=
  (claim_C3 wModel (.eqE (.constant 0) (.constant 1)) wSt
      ⟨2, .inl false⟩ (Filter.mkF 2 true) [] rfl rfl).2.2.1 (by decide) (by decide)

/-! ### Claim on REQUIRE -/

theorem getD_zipWith {α β γ : Type} (f : α → β → γ) (d1 : α) (d2 : β) (d3 : γ) :
    ∀ (l1 : List α) (l2 : List β) (k : Nat), k < l1.length → k < l2.length →
      (List.zipWith f l1 l2).getD k d3 = f (l1.getD k d1) (l2.getD k d2) := by
  intro l1
  induction l1 with
  | nil => intro l2 k h1 h2; simp at h1
  | cons a as ih =>
      intro l2 k h1 h2
      cases l2 with
      | nil => simp at h2
      | cons b bs =>
          cases k with
          | zero => rfl
          | succ j =>
              simp only [List.zipWith_cons_cons, List.getD_cons_succ]
              exact ih bs j (by simpa using h1) (by simpa using h2)

theorem getD_map {α β : Type} (f : α → β) (d1 : α) (d2 : β) :
    ∀ (l : List α) (k : Nat), k < l.length → (l.map f).getD k d2 = f (l.getD k d1) := by
  intro l
  induction l with
  | nil => intro k h; simp at h
  | cons a as ih =>
      intro k h
      cases k with
      | zero => rfl
      | succ j =>
          simp only [List.map_cons, List.getD_cons_succ]
          exact ih j (by simpa using h)

namespace Filter

theorem lanes_length {f : Filter} (hw : f.wf) : f.lanes.length = f.n := by
  unfold lanes
  cases hr : f.rep with
  | inl v => simp
  | inr xs => exact hw xs hr

theorem lane_eq_lanes_getD {f : Filter} (k : Nat) (hk : k < f.n) :
    f.lane k = f.lanes.getD k false := by
  unfold lane lanes
  cases hr : f.rep with
  | inl v => rw [List.getD_eq_getElem?_getD]; simp [hk]
  | inr xs => rfl

theorem notF_n (f : Filter) : f.notF.n = f.n := by
  unfold notF; cases f.rep <;> rfl

theorem notF_wf {f : Filter} (hw : f.wf) : f.notF.wf := by
  intro xs h
  unfold notF at h
  cases hr : f.rep with
  | inl v => rw [hr] at h; simp at h
  | inr ys =>
      rw [hr] at h
      simp only [Sum.inr.injEq] at h
      subst h
      simp [notF_n, hw ys hr]

theorem notF_lane {f : Filter} (hw : f.wf) (k : Nat) (hk : k < f.n) :
    f.notF.lane k = !f.lane k := by
  unfold notF lane
  cases hr : f.rep with
  | inl v => simp
  | inr xs =>
      simp only []
      exact getD_map (fun b => !b) false false xs k (by rw [hw xs hr]; exact hk)

theorem orF_n (a b : Filter) : (a.orF b).n = a.n := by
  unfold orF
  cases a.rep <;> cases b.rep <;> rfl

theorem orF_wf {a b : Filter} (hwa : a.wf) (hwb : b.wf) (hn : b.n = a.n) : (a.orF b).wf := by
  intro xs h
  unfold orF at h
  cases hra : a.rep with
  | inl va =>
      cases hrb : b.rep with
      | inl vb => rw [hra, hrb] at h; simp at h
      | inr yb =>
          rw [hra, hrb] at h
          simp only [Sum.inr.injEq] at h
          subst h
          simp [orF_n, List.length_zipWith, lanes_length hwa, lanes_length hwb, hn]
  | inr ya =>
      rw [hra] at h
      simp only [Sum.inr.injEq] at h
      subst h
      simp [orF_n, List.length_zipWith, lanes_length hwa, lanes_length hwb, hn]

theorem orF_lane {a b : Filter} (hwa : a.wf) (hwb : b.wf) (hn : b.n = a.n)
    (k : Nat) (hk : k < a.n) : (a.orF b).lane k = (a.lane k || b.lane k) := by
  unfold orF
  cases hra : a.rep with
  | inl va =>
      cases hrb : b.rep with
      | inl vb =>
          unfold lane
          rw [hra, hrb]
      | inr yb =>
          unfold lane
          simp only [hra, hrb]
          rw [getD_zipWith (fun x y => x || y) false false false _ _ k
            (by rw [lanes_length hwa]; exact hk) (by rw [lanes_length hwb, hn]; exact hk)]
          rw [← lane_eq_lanes_getD k hk, ← lane_eq_lanes_getD k (hn ▸ hk)]
          unfold lane
          rw [hra, hrb]
  | inr ya =>
      unfold lane
      simp only [hra]
      rw [getD_zipWith (fun x y => x || y) false false false _ _ k
        (by rw [lanes_length hwa]; exact hk) (by rw [lanes_length hwb, hn]; exact hk)]
      rw [← lane_eq_lanes_getD k hk, ← lane_eq_lanes_getD k (hn ▸ hk)]
      unfold lane
      rw [hra]

/-- The REQUIRE check `updateDeterministic(); deterministic() && at(0)` passes
exactly when every lane is true (for a well-formed nonempty filter). -/
theorem updateDet_check {f : Filter} (hw : f.wf) (h0 : 0 < f.n) :
    ((f.updateDet.deterministic = true ∧ f.updateDet.lane 0 = true) ↔
      ∀ k < f.n, f.lane k = true) := by
  obtain ⟨n, rep⟩ := f
  dsimp only at h0 ⊢
  cases rep with
  | inl v =>
      simp only [updateDet, deterministic, lane, Sum.isLeft, true_and]
      constructor
      · intro hv k hk
        exact hv
      · intro h
        exact h 0 h0
  | inr xs =>
      cases xs with
      | nil =>
          exfalso
          have h1 : ([] : List Bool).length = n := hw [] rfl
          simp at h1
          omega
      | cons x ys =>
          have hlen : ys.length + 1 = n := by simpa using hw (x :: ys) rfl
          by_cases hall : ys.all (fun b => b == x) = true
          · simp only [updateDet, deterministic, lane, hall, if_true, Sum.isLeft, true_and]
            constructor
            · intro hv k hk
              subst hv
              cases k with
              | zero => rfl
              | succ j =>
                  simp only [List.getD_cons_succ]
                  have hj : j < ys.length := by omega
                  have hmem := List.all_eq_true.mp hall (ys.get ⟨j, hj⟩) (ys.get_mem j hj)
                  rw [List.getD_eq_getElem?_getD, List.getElem?_eq_getElem hj]
                  simpa [List.get_eq_getElem] using hmem
            · intro h
              exact h 0 h0
          · simp only [updateDet, deterministic, lane, hall, if_false, Sum.isLeft,
              Bool.false_eq_true, false_and, false_iff]
            intro h
            have hex : ∃ b ∈ ys, ¬b = x := by
              by_contra hno
              push_neg at hno
              exact hall (List.all_eq_true.mpr (fun b hb => by simpa using hno b hb))
            obtain ⟨b, hb, hbx⟩ := hex
            obtain ⟨⟨j, hj⟩, hget⟩ := List.mem_iff_get.mp hb
            have hx : x = true := by simpa using h 0 h0
            have hy : b = true := by
              have hk := h (j + 1) (by omega)
              rw [List.getD_cons_succ, List.getD_eq_getElem?_getD,
                List.getElem?_eq_getElem hj] at hk
              rw [← hget]
              simpa [List.get_eq_getElem] using hk
            exact hbx (hy.trans hx.symm)

end Filter

/-- C4: `REQUIRE cond` succeeds — leaving the state unchanged — exactly when
on every lane the active filter implies the condition (filter lane false or
condition lane true); otherwise it reports the require error.  In particular
`REQUIRE false` succeeds under an all-false filter and fails under any mask
with a true lane. -/
theorem claim_C4 (M : Model) (cond : Expr) (st : EngineState)
    (c m : Filter) (rest : List Filter)
    (hc : evalExpr M cond st = .ok (pushVal (.flt c) st))
    (hm : st.filter = m :: rest)
    (hwm : m.wf) (hwc : c.wf) (hn : c.n = m.n) (h0 : 0 < m.n) :
    (runStmt M (.requireS cond) st = .ok st ↔
      ∀ k < m.n, m.lane k = false ∨ c.lane k = true) ∧
    ((¬ ∀ k < m.n, m.lane k = false ∨ c.lane k = true) →
      runStmt M (.requireS cond) st =
        .error "required condition is not (always) fulfilled") := by
  have hwn : m.notF.wf := Filter.notF_wf hwm
  have hnn : c.n = m.notF.n := by rw [Filter.notF_n]; exact hn
  have hw2 : (m.notF.orF c).wf := Filter.orF_wf hwn hwc hnn
  have hn2 : (m.notF.orF c).n = m.n := by rw [Filter.orF_n, Filter.notF_n]
  have key : ((m.notF.orF c).updateDet.deterministic = true ∧
        (m.notF.orF c).updateDet.lane 0 = true) ↔
      ∀ k < m.n, (m.lane k = false ∨ c.lane k = true) := by
    rw [Filter.updateDet_check hw2 (by rw [hn2]; exact h0)]
    constructor
    · intro hall k hk
      have hone := hall k (by rw [hn2]; exact hk)
      rw [Filter.orF_lane hwn hwc hnn k (by rw [Filter.notF_n]; exact hk),
        Filter.notF_lane hwm k hk] at hone
      simpa using hone
    · intro hall k hk
      rw [hn2] at hk
      rw [Filter.orF_lane hwn hwc hnn k (by rw [Filter.notF_n]; exact hk),
        Filter.notF_lane hwm k hk]
      simpa using hall k hk
  have hrun : runStmt M (.requireS cond) st =
      (if (m.notF.orF c).updateDet.deterministic = true ∧
          (m.notF.orF c).updateDet.lane 0 = true
        then .ok st else .error "required condition is not (always) fulfilled") := by
    simp only [runStmt, hc, Bind.bind, Except.bind, popVal_push, topFilter_cons hm]
  constructor
  · rw [hrun]
    by_cases hcase : ((m.notF.orF c).updateDet.deterministic = true ∧
        (m.notF.orF c).updateDet.lane 0 = true)
    · rw [if_pos hcase]
      exact iff_of_true rfl (key.mp hcase)
    · rw [if_neg hcase]
      constructor
      · intro habs
        exact absurd habs (by simp)
      · intro hRHS
        exact absurd (key.mpr hRHS) hcase
  · intro hnot
    rw [hrun, if_neg (fun hcase => hnot (key.mp hcase))]

theorem claim_C4_witness :
    runStmt wModel (.requireS (.eqE (.constant 1) (.constant 1))) wSt = .ok wSt :=
  (claim_C4 wModel (.eqE (.constant 1) (.constant 1)) wSt
      ⟨2, .inl true⟩ (Filter.mkF 2 true) [] rfl rfl
      (fun _ h => nomatch h) (fun _ h => nomatch h) rfl (by decide)).1.mpr
    (by decide)

/-! ### Claim on FOR loops -/

/-- The loop-counter list follows the C++ `while` guard: one more iteration
exactly while `(s > 0 && cl <= b) || (s < 0 && cl >= b)` holds. -/
theorem loopVals_unfold (a b s : Int) :
    loopVals a b s =
      if (0 < s ∧ a ≤ b) ∨ (s < 0 ∧ b ≤ a) then a :: loopVals (a + s) b s else [] := by
  rw [loopVals]
  by_cases h : (0 < s ∧ a ≤ b) ∨ (s < 0 ∧ b ≤ a)
  · rw [dif_pos h, if_pos h]
  · rw [dif_neg h, if_neg h]

/-- C5: `FOR name = a TO b STEP s` over deterministic numeric bounds: a zero
step is an error; a nonzero step runs the iterations of `loopVals a b s`
(start at `a`, step by `s`, while within the inclusive bound `b` — so an
empty range runs zero iterations and leaves the state unchanged); before each
body the loop scalar is set to the deterministic counter value, and a body
that leaves the loop variable altered raises an error. -/
theorem claim_C5 (M : Model) (name : String) (aE bE sE : Expr) (body : Stmt)
    (st : EngineState) (a b s : RandomVariable) (sv : Value)
    (hsc : lookupScalar st name = some sv)
    (hnc : st.constants.contains name = false)
    (ha : PureAt M aE (.num a) st)
    (hb : PureAt M bE (.num b) (pushVal (.num a) st))
    (hs : PureAt M sE (.num s) (pushVal (.num b) (pushVal (.num a) st)))
    (hda : a.deterministic = true) (hdb : b.deterministic = true)
    (hds : s.deterministic = true) :
    (qround (s.lane 0) = 0 →
       runStmt M (.loop name aE bE sE body) st = .error "loop step must be non-zero") ∧
    (qround (s.lane 0) ≠ 0 →
       runStmt M (.loop name aE bE sE body) st =
         runLoopIter M name body
           (loopVals (qround (a.lane 0)) (qround (b.lane 0)) (qround (s.lane 0))) st) ∧
    ((0 < qround (s.lane 0) ∧ qround (b.lane 0) < qround (a.lane 0)) ∨
     (qround (s.lane 0) < 0 ∧ qround (a.lane 0) < qround (b.lane 0)) →
       runStmt M (.loop name aE bE sE body) st = .ok st) ∧
    (∀ (cl : Int) (rest : List Int) (s0 st2 : EngineState) (rv : RandomVariable),
       runStmt M body (setScalar s0 name (.num (RandomVariable.det M.size (cl : ℚ)))) = .ok st2 →
       lookupScalar st2 name = some (.num rv) →
       RandomVariable.close_enough_all rv (RandomVariable.det M.size (cl : ℚ)) = true →
       runLoopIter M name body (cl :: rest) s0 = runLoopIter M name body rest st2) ∧
    (∀ (cl : Int) (rest : List Int) (s0 st2 : EngineState) (rv : RandomVariable),
       runStmt M body (setScalar s0 name (.num (RandomVariable.det M.size (cl : ℚ)))) = .ok st2 →
       lookupScalar st2 name = some (.num rv) →
       RandomVariable.close_enough_all rv (RandomVariable.det M.size (cl : ℚ)) = false →
       runLoopIter M name body (cl :: rest) s0 =
         .error "loop variable was modified in body, this is illegal.") := by
  have ha' : evalExpr M aE st = .ok (pushVal (.num a) st) := ha M.payFn
  have hb' : evalExpr M bE (pushVal (.num a) st) =
      .ok (pushVal (.num b) (pushVal (.num a) st)) := hb M.payFn
  have hs' : evalExpr M sE (pushVal (.num b) (pushVal (.num a) st)) =
      .ok (pushVal (.num s) (pushVal (.num b) (pushVal (.num a) st))) := hs M.payFn
  have hmain : runStmt M (.loop name aE bE sE body) st =
      (if qround (s.lane 0) ≠ 0 then
        runLoopIter M name body
          (loopVals (qround (a.lane 0)) (qround (b.lane 0)) (qround (s.lane 0))) st
      else .error "loop step must be non-zero") := by
    simp only [runStmt, hsc, hnc, Bool.false_eq_true, if_false, ha', hb', hs',
      Bind.bind, Except.bind, popVal_push, hda, hdb, hds, if_true]
  refine ⟨?_, ?_, ?_, ?_, ?_⟩
  · intro h0
    rw [hmain, if_neg (by simpa using h0)]
  · intro h0
    rw [hmain, if_pos h0]
  · intro hempty
    have h0 : qround (s.lane 0) ≠ 0 := by rcases hempty with ⟨h1, -⟩ | ⟨h1, -⟩ <;> omega
    rw [hmain, if_pos h0, loopVals_unfold, if_neg (by
      rcases hempty with ⟨h1, h2⟩ | ⟨h1, h2⟩ <;> rintro (⟨g1, g2⟩ | ⟨g1, g2⟩) <;> omega)]
    simp only [runLoopIter]
  · intro cl rest s0 st2 rv hbody hlook hclose
    simp only [runLoopIter, hbody, hlook, hclose, Bind.bind, Except.bind, if_true]
  · intro cl rest s0 st2 rv hbody hlook hclose
    simp only [runLoopIter, hbody, hlook, hclose, Bool.false_eq_true, Bind.bind,
      Except.bind, if_false]

/-- A context holding a numeric loop scalar for the witnesses. -/
def wCtx2 : ScriptContext := ⟨[("i", .num (RandomVariable.det 2 0))], [], [], []⟩

/-- Initial state over `wCtx2`. -/
def wSt2 : EngineState := initialState wModel wCtx2

theorem claim_C5_witness :
    runStmt wModel
        (.loop "i" (.constant 5) (.constant 3) (.constant 1) (.assign "i" none (.constant 9)))
        wSt2 = .ok wSt2 ∧
    runStmt wModel
        (.loop "i" (.constant 1) (.constant 3) (.constant 0) (.assign "i" none (.constant 9)))
        wSt2 = .error "loop step must be non-zero" := by
  constructor
  · exact (claim_C5 wModel "i" (.constant 5) (.constant 3) (.constant 1)
        (.assign "i" none (.constant 9)) wSt2
        (RandomVariable.det 2 5) (RandomVariable.det 2 3) (RandomVariable.det 2 1)
        (.num (RandomVariable.det 2 0)) rfl rfl
        (fun _ => rfl) (fun _ => rfl) (fun _ => rfl) rfl rfl rfl).2.2.1
      (Or.inl ⟨by norm_num [qround, RandomVariable.det, RandomVariable.lane],
        by norm_num [qround, RandomVariable.det, RandomVariable.lane]⟩)
  · exact (claim_C5 wModel "i" (.constant 1) (.constant 3) (.constant 0)
        (.assign "i" none (.constant 9)) wSt2
        (RandomVariable.det 2 1) (RandomVariable.det 2 3) (RandomVariable.det 2 0)
        (.num (RandomVariable.det 2 0)) rfl rfl
        (fun _ => rfl) (fun _ => rfl) (fun _ => rfl) rfl rfl rfl).1
      (by norm_num [qround, RandomVariable.det, RandomVariable.lane])

/-! ### Claim on the run post-condition -/

/-- `ScriptEngine::run`'s two final size `QL_REQUIRE`s never fail: by the
stack invariant, a successful visit of the root returns both stacks exactly
as the constructor built them. -/
theorem scriptEngineRun_eq (M : Model) (ctx : ScriptContext) (root : Stmt) :
    scriptEngineRun M ctx root = runStmt M root (initialState M ctx) := by
  unfold scriptEngineRun
  cases hr : runStmt M root (initialState M ctx) with
  | error e => simp [Bind.bind, Except.bind]
  | ok st =>
      obtain ⟨hf, hv⟩ := runStmt_stack M root _ _ hr
      simp [Bind.bind, Except.bind, hv, hf, initialState]

/-- C1: at the start of a run the filter stack holds a single all-true filter
of the model's size and the value stack a single sentinel RandomVariable;
after a successful run both stacks have size exactly one. -/
theorem claim_C1 (M : Model) (ctx : ScriptContext) (root : Stmt) (st : EngineState)
    (h : scriptEngineRun M ctx root = .ok st) :
    ((initialState M ctx).filter = [Filter.mkF M.size true] ∧
     (initialState M ctx).value = [Value.num sentinel]) ∧
    st.value.length = 1 ∧ st.filter.length = 1 := by
  refine ⟨⟨rfl, rfl⟩, ?_⟩
  rw [scriptEngineRun_eq] at h
  obtain ⟨hf, hv⟩ := runStmt_stack M root _ _ h
  rw [hv, hf]
  exact ⟨rfl, rfl⟩

theorem claim_C1_witness :
    scriptEngineRun wModel wCtx (.requireS (.eqE (.constant 1) (.constant 1))) = .ok wSt ∧
    wSt.value.length = 1 ∧ wSt.filter.length = 1 := by
  have hrun : scriptEngineRun wModel wCtx (.requireS (.eqE (.constant 1) (.constant 1))) =
      .ok wSt := by
    rw [scriptEngineRun_eq]
    simp only [runStmt]
    rfl
  exact ⟨hrun, (claim_C1 wModel wCtx (.requireS (.eqE (.constant 1) (.constant 1))) wSt hrun).2⟩

/-! ### C10: the SORT/PERMUTE frame property -/

instance : Inhabited Value := ⟨.num default⟩

/-- The lane count of a Number value (0 on the other variants). -/
def valN : Value → Nat
  | .num r => r.n
  | _ => 0

/-- Lane-`k` observer of a Number value (0 on the other variants). -/
def valLaneQ : Value → Nat → ℚ
  | .num r, k => r.lane k
  | _, _ => 0

/-- The lane count of component `c` of context array `name`. -/
def arrN (st : EngineState) (name : String) (c : Nat) : Nat :=
  valN (((lookupArray st name).getD []).getD c default)

/-- Lane `k` of component `c` of context array `name`. -/
def arrLaneQ (st : EngineState) (name : String) (c k : Nat) : ℚ :=
  valLaneQ (((lookupArray st name).getD []).getD c default) k

theorem getD_default_of_ge {α : Type} [Inhabited α] {l : List α} {c : Nat}
    (h : l.length ≤ c) : l.getD c default = default := by
  rw [List.getD_eq_getElem?_getD, List.getElem?_eq_none h]
  rfl

theorem RandomVariable.set_n (r : RandomVariable) (j : Nat) (v : ℚ) : (r.set j v).n = r.n := rfl

/-- A single-lane write does not disturb the other in-range lanes. -/
theorem RandomVariable.set_lane_ne (r : RandomVariable) {j k : Nat} (hne : k ≠ j)
    (hk : k < r.n) (v : ℚ) : (r.set j v).lane k = r.lane k := by
  obtain ⟨n, rep, t⟩ := r
  dsimp only at hk
  cases rep with
  | inl q =>
      simp only [RandomVariable.set, RandomVariable.lane, RandomVariable.lanes]
      rw [List.getD_eq_getElem?_getD, List.getElem?_set_ne (Ne.symm hne),
          List.getElem?_replicate]
      simp [hk]
  | inr xs =>
      simp only [RandomVariable.set, RandomVariable.lane, RandomVariable.lanes]
      rw [List.getD_eq_getElem?_getD, List.getElem?_set_ne (Ne.symm hne),
          ← List.getD_eq_getElem?_getD]

theorem insertSorted_length (a : ℚ) : ∀ l : List ℚ, (insertSorted a l).length = l.length + 1
  | [] => rfl
  | b :: rest => by
      simp only [insertSorted]
      split
      · rfl
      · simp [insertSorted_length a rest]

theorem sortQ_length (l : List ℚ) : (sortQ l).length = l.length := by
  induction l with
  | nil => rfl
  | cons a rest ih =>
      simp only [sortQ, List.foldr_cons] at ih ⊢
      rw [insertSorted_length, ih]
      rfl

theorem insertSortedP_length (a : ℚ × Nat) :
    ∀ l : List (ℚ × Nat), (insertSortedP a l).length = l.length + 1
  | [] => rfl
  | b :: rest => by
      simp only [insertSortedP]
      split
      · rfl
      · simp [insertSortedP_length a rest]

theorem sortPairs_length (l : List (ℚ × Nat)) : (sortPairs l).length = l.length := by
  induction l with
  | nil => rfl
  | cons a rest ih =>
      simp only [sortPairs, List.foldr_cons] at ih ⊢
      rw [insertSortedP_length, ih]
      rfl

theorem permLaneVals_length {x p : List RandomVariable} {k : Nat} :
    ∀ {ks : List Nat} {vs : List ℚ}, permLaneVals x p k ks = .ok vs → vs.length = ks.length := by
  intro ks
  induction ks with
  | nil =>
      intro vs h
      simp only [permLaneVals] at h
      obtain rfl := Except.ok.inj h
      rfl
  | cons c cs ih =>
      intro vs h
      simp only [permLaneVals] at h
      split at h
      · obtain ⟨rest, h1, h⟩ := bindE_ok.mp h
        obtain rfl := Except.ok.inj h
        simp [ih h1]
      · exact Except.noConfusion h

theorem mapM_numOf_eq : ∀ {vs : List Value} {rs : List RandomVariable},
    vs.mapM numOf = .ok rs → vs = rs.map Value.num := by
  intro vs
  induction vs with
  | nil =>
      intro rs h
      rw [List.mapM_nil] at h
      obtain rfl := Except.ok.inj h
      rfl
  | cons v vt ih =>
      intro vs h
      rw [List.mapM_cons] at h
      obtain ⟨r, h1, h⟩ := bindE_ok.mp h
      obtain ⟨rest, h2, h⟩ := bindE_ok.mp h
      obtain rfl := Except.ok.inj h
      cases v with
      | num rv =>
          simp only [numOf, Except.ok.injEq] at h1
          subst h1
          simp [ih h2]
      | flt f => exact Except.noConfusion h1
      | event d => exact Except.noConfusion h1
      | curr c => exact Except.noConfusion h1
      | index i => exact Except.noConfusion h1
      | daycounter dc => exact Except.noConfusion h1

theorem getD_map_num (rs : List RandomVariable) (c : Nat) :
    (rs.map Value.num).getD c default = .num (rs.getD c default) := by
  rw [List.getD_eq_getElem?_getD, List.getElem?_map, List.getD_eq_getElem?_getD]
  cases rs[c]? <;> rfl

theorem lookup_map_set {α : Type} (name : String) (vs : α) :
    ∀ (l : List (String × α)) (name' : String),
      (l.map (fun q => if q.1 == name then (q.1, vs) else q)).lookup name' =
        if name' = name then (l.lookup name').map (fun _ => vs) else l.lookup name' := by
  intro l
  induction l with
  | nil =>
      intro name'
      simp [List.lookup]
  | cons q t ih =>
      intro name'
      obtain ⟨a, b⟩ := q
      have hmap : ((a, b) :: t).map (fun q => if q.1 == name then (q.1, vs) else q)
          = (if a = name then (a, vs) else (a, b))
            :: t.map (fun q => if q.1 == name then (q.1, vs) else q) := by
        by_cases hqa : a = name <;> simp [hqa]
      rw [hmap]
      by_cases hqa : a = name
      · rw [if_pos hqa]
        by_cases hna : name' = a
        · have hb : (name' == a) = true := by simp [hna]
          rw [List.lookup_cons, hb, if_pos (hna.trans hqa), List.lookup_cons, hb]
          rfl
        · have hb : (name' == a) = false := by simp [hna]
          rw [List.lookup_cons, hb, ih name', List.lookup_cons, hb]
      · rw [if_neg hqa]
        by_cases hna : name' = a
        · have hb : (name' == a) = true := by simp [hna]
          have hnn : ¬ name' = name := fun he => hqa ((hna.symm.trans he).symm ▸ rfl)
          rw [List.lookup_cons, hb, if_neg hnn, List.lookup_cons, hb]
        · have hb : (name' == a) = false := by simp [hna]
          rw [List.lookup_cons, hb, ih name', List.lookup_cons, hb]

theorem lookupArray_setArray (st : EngineState) (name : String) (vs : List Value)
    (name' : String) :
    lookupArray (setArray st name vs) name' =
      if name' = name then (lookupArray st name').map (fun _ => vs) else lookupArray st name' :=
  lookup_map_set name vs st.arrays name'

theorem lookupArray_setNumArray_self {st : EngineState} {tn : String} {ws : List Value}
    (rs : List RandomVariable) (h : lookupArray st tn = some ws) :
    lookupArray (setNumArray st tn rs) tn = some (rs.map Value.num) := by
  unfold setNumArray
  rw [lookupArray_setArray, if_pos rfl, h]
  rfl

theorem lookupArray_setNumArray_ne {st : EngineState} {tn name : String}
    (rs : List RandomVariable) (h : name ≠ tn) :
    lookupArray (setNumArray st tn rs) name = lookupArray st name := by
  unfold setNumArray
  rw [lookupArray_setArray, if_neg h]

theorem arrLaneQ_of_lookup {st : EngineState} {name : String} {rs : List RandomVariable}
    (h : lookupArray st name = some (rs.map Value.num)) (c k : Nat) :
    arrLaneQ st name c k = (rs.getD c default).lane k ∧
    arrN st name c = (rs.getD c default).n := by
  unfold arrLaneQ arrN
  rw [h, Option.getD_some, getD_map_num]
  exact ⟨rfl, rfl⟩

theorem getNumArray_lookup {st : EngineState} {name : String} {rs : List RandomVariable}
    (h : getNumArray st name = .ok rs) :
    lookupArray st name = some (rs.map Value.num) := by
  unfold getNumArray at h
  split at h
  · exact Except.noConfusion h
  · rename_i vs hvs
    rw [hvs]
    exact congrArg some (mapM_numOf_eq h)

theorem sortTargets_lookup {st : EngineState} {x yRead : List RandomVariable}
    {xn : String} {yn : Option String}
    (h1 : getNumArray st xn = .ok x) (h2 : readOptArray st yn = .ok yRead) :
    lookupArray st (sortTargets x yRead xn yn).2 =
      some ((sortTargets x yRead xn yn).1.map Value.num) := by
  cases hye : yRead.isEmpty with
  | true =>
      simp only [sortTargets, hye, if_true]
      exact getNumArray_lookup h1
  | false =>
      have hyn : ∃ s, yn = some s := by
        cases yn with
        | some s => exact ⟨s, rfl⟩
        | none =>
            simp only [readOptArray] at h2
            obtain rfl := Except.ok.inj h2
            simp at hye
      obtain ⟨s, rfl⟩ := hyn
      simp only [readOptArray] at h2
      simp only [sortTargets, hye, Bool.false_eq_true, if_false, Option.getD_some]
      exact getNumArray_lookup h2

theorem permTargets_lookup {st : EngineState} {x yRead pRead : List RandomVariable}
    {xn : String} {yn : Option String}
    (h1 : getNumArray st xn = .ok x) (h2 : readOptArray st yn = .ok yRead)
    (hlen : (permTargets x yRead pRead xn yn).1.length = x.length) (hx1 : x.length ≥ 1) :
    lookupArray st (permTargets x yRead pRead xn yn).2.2 =
      some ((permTargets x yRead pRead xn yn).1.map Value.num) := by
  cases hpe : pRead.isEmpty with
  | true =>
      simp only [permTargets, hpe, if_true]
      exact getNumArray_lookup h1
  | false =>
      cases yn with
      | some s =>
          simp only [readOptArray] at h2
          simp only [permTargets, hpe, Bool.false_eq_true, if_false, Option.getD_some]
          exact getNumArray_lookup h2
      | none =>
          simp only [readOptArray] at h2
          obtain rfl := Except.ok.inj h2
          simp only [permTargets, hpe, Bool.false_eq_true, if_false] at hlen
          simp at hlen
          omega

/-- Writing lane `k'` across a vector of Numbers disturbs neither the element
sizes nor any other in-range lane `k`. -/
theorem zipWith_set_frame {β : Type} (g : β → ℚ) (db : β) {k k' : Nat} (hkk : k ≠ k')
    (ys : List RandomVariable) (bs : List β) (hlen : ys.length = bs.length) :
    (List.zipWith (fun (yc : RandomVariable) v => yc.set k' (g v)) ys bs).length = ys.length ∧
    (∀ c, ((List.zipWith (fun (yc : RandomVariable) v => yc.set k' (g v)) ys bs).getD c default).n
        = (ys.getD c default).n) ∧
    (∀ c, k < (ys.getD c default).n →
      ((List.zipWith (fun (yc : RandomVariable) v => yc.set k' (g v)) ys bs).getD c default).lane k
        = (ys.getD c default).lane k) := by
  have hz : (List.zipWith (fun (yc : RandomVariable) v => yc.set k' (g v)) ys bs).length = ys.length := by
    rw [List.length_zipWith, hlen, Nat.min_self]
  refine ⟨hz, ?_, ?_⟩
  · intro c
    by_cases hc : c < ys.length
    · rw [getD_zipWith (fun (yc : RandomVariable) v => yc.set k' (g v)) default db default ys bs c hc (hlen ▸ hc)]
      rfl
    · push_neg at hc
      rw [getD_default_of_ge (hz.symm ▸ hc), getD_default_of_ge hc]
  · intro c hck
    by_cases hc : c < ys.length
    · rw [getD_zipWith (fun (yc : RandomVariable) v => yc.set k' (g v)) default db default ys bs c hc (hlen ▸ hc)]
      exact RandomVariable.set_lane_ne _ hkk hck _
    · push_neg at hc
      rw [getD_default_of_ge (hz.symm ▸ hc), getD_default_of_ge hc]

/-- One SORT step on lane `k'` leaves every other in-range lane `k` of `y`
untouched (the lane loop `if (!flt[k]) continue;`). -/
theorem sortLane_frame {x : List RandomVariable} {flt : Filter} {k : Nat}
    (hk : flt.lane k = false) (ys : List RandomVariable) (k' : Nat)
    (hlen : ys.length = x.length) :
    (sortLane x flt ys k').length = x.length ∧
    (∀ c, ((sortLane x flt ys k').getD c default).n = (ys.getD c default).n) ∧
    (∀ c, k < (ys.getD c default).n →
      ((sortLane x flt ys k').getD c default).lane k = (ys.getD c default).lane k) := by
  unfold sortLane
  split
  · rename_i hK
    have hkk : k ≠ k' := fun he => by rw [he, hK] at hk; exact Bool.noConfusion hk
    have hsl : ys.length = (sortQ (x.map (fun xc => xc.lane k'))).length := by
      rw [sortQ_length, List.length_map, hlen]
    obtain ⟨l1, n1, v1⟩ := zipWith_set_frame (fun v => v) (0 : ℚ) hkk ys _ hsl
    exact ⟨l1.trans hlen, n1, v1⟩
  · exact ⟨hlen, fun c => rfl, fun c _ => rfl⟩

theorem foldl_sortLane_frame {x : List RandomVariable} {flt : Filter} {k : Nat}
    (hk : flt.lane k = false) :
    ∀ (ks : List Nat) (ys : List RandomVariable), ys.length = x.length →
      ((ks.foldl (sortLane x flt) ys).length = x.length ∧
       (∀ c, ((ks.foldl (sortLane x flt) ys).getD c default).n = (ys.getD c default).n) ∧
       (∀ c, k < (ys.getD c default).n →
         ((ks.foldl (sortLane x flt) ys).getD c default).lane k
           = (ys.getD c default).lane k)) := by
  intro ks
  induction ks with
  | nil =>
      intro ys h
      exact ⟨h, fun c => rfl, fun c _ => rfl⟩
  | cons k' kt ih =>
      intro ys h
      rw [List.foldl_cons]
      obtain ⟨l1, n1, v1⟩ := sortLane_frame hk ys k' h
      obtain ⟨L1, N1, V1⟩ := ih (sortLane x flt ys k') l1
      refine ⟨L1, fun c => (N1 c).trans (n1 c), fun c hc => ?_⟩
      rw [V1 c ((n1 c).symm ▸ hc), v1 c hc]

/-- One permutation-producing SORT step on lane `k'` leaves every other
in-range lane `k` of both `y` and `p` untouched. -/
theorem sortLaneP_frame {x : List RandomVariable} {flt : Filter} {k : Nat}
    (hk : flt.lane k = false) (yp : List RandomVariable × List RandomVariable) (k' : Nat)
    (hy : yp.1.length = x.length) (hp : yp.2.length = x.length) :
    (sortLaneP x flt yp k').1.length = x.length ∧
    (sortLaneP x flt yp k').2.length = x.length ∧
    (∀ c, ((sortLaneP x flt yp k').1.getD c default).n = (yp.1.getD c default).n) ∧
    (∀ c, ((sortLaneP x flt yp k').2.getD c default).n = (yp.2.getD c default).n) ∧
    (∀ c, k < (yp.1.getD c default).n →
      ((sortLaneP x flt yp k').1.getD c default).lane k = (yp.1.getD c default).lane k) ∧
    (∀ c, k < (yp.2.getD c default).n →
      ((sortLaneP x flt yp k').2.getD c default).lane k = (yp.2.getD c default).lane k) := by
  unfold sortLaneP
  split
  · rename_i hK
    have hkk : k ≠ k' := fun he => by rw [he, hK] at hk; exact Bool.noConfusion hk
    have hsl : (sortPairs (x.enum.map (fun ci => (ci.2.lane k', ci.1 + 1)))).length
        = x.length := by
      rw [sortPairs_length, List.length_map, List.enum_length]
    obtain ⟨l1, n1, v1⟩ :=
      zipWith_set_frame Prod.fst ((0 : ℚ), (0 : Nat)) hkk yp.1 _ (by rw [hsl, hy])
    obtain ⟨l2, n2, v2⟩ :=
      zipWith_set_frame (fun pr => ((pr.2 : ℚ))) ((0 : ℚ), (0 : Nat)) hkk yp.2 _
        (by rw [hsl, hp])
    exact ⟨l1.trans hy, l2.trans hp, n1, n2, v1, v2⟩
  · exact ⟨hy, hp, fun c => rfl, fun c => rfl, fun c _ => rfl, fun c _ => rfl⟩

theorem foldl_sortLaneP_frame {x : List RandomVariable} {flt : Filter} {k : Nat}
    (hk : flt.lane k = false) :
    ∀ (ks : List Nat) (yp : List RandomVariable × List RandomVariable),
      yp.1.length = x.length → yp.2.length = x.length →
      ((ks.foldl (sortLaneP x flt) yp).1.length = x.length ∧
       (ks.foldl (sortLaneP x flt) yp).2.length = x.length ∧
       (∀ c, ((ks.foldl (sortLaneP x flt) yp).1.getD c default).n
           = (yp.1.getD c default).n) ∧
       (∀ c, ((ks.foldl (sortLaneP x flt) yp).2.getD c default).n
           = (yp.2.getD c default).n) ∧
       (∀ c, k < (yp.1.getD c default).n →
         ((ks.foldl (sortLaneP x flt) yp).1.getD c default).lane k
           = (yp.1.getD c default).lane k) ∧
       (∀ c, k < (yp.2.getD c default).n →
         ((ks.foldl (sortLaneP x flt) yp).2.getD c default).lane k
           = (yp.2.getD c default).lane k)) := by
  intro ks
  induction ks with
  | nil =>
      intro yp hy hp
      exact ⟨hy, hp, fun c => rfl, fun c => rfl, fun c _ => rfl, fun c _ => rfl⟩
  | cons k' kt ih =>
      intro yp hy hp
      rw [List.foldl_cons]
      obtain ⟨l1, l2, n1, n2, v1, v2⟩ := sortLaneP_frame hk yp k' hy hp
      obtain ⟨L1, L2, N1, N2, V1, V2⟩ := ih (sortLaneP x flt yp k') l1 l2
      refine ⟨L1, L2, fun c => (N1 c).trans (n1 c), fun c => (N2 c).trans (n2 c),
        fun c hc => ?_, fun c hc => ?_⟩
      · rw [V1 c ((n1 c).symm ▸ hc), v1 c hc]
      · rw [V2 c ((n2 c).symm ▸ hc), v2 c hc]

/-- A PERMUTE step on a filter-false lane is skipped outright: no bounds check
runs and the target is returned unchanged. -/
theorem permuteLane_skip {x p : List RandomVariable} {flt : Filter}
    {ycur : List RandomVariable} {k : Nat} (hk : flt.lane k = false) :
    permuteLane x p flt ycur k = .ok ycur := by
  unfold permuteLane
  rw [hk]
  rfl

/-- One PERMUTE step on lane `k'` leaves every other in-range lane `k` of `y`
untouched. -/
theorem permuteLane_frame {x p : List RandomVariable} {flt : Filter} {k : Nat}
    (hk : flt.lane k = false) {ycur ynext : List RandomVariable} {k' : Nat}
    (h : permuteLane x p flt ycur k' = .ok ynext) (hlen : ycur.length = x.length) :
    ynext.length = x.length ∧
    (∀ c, (ynext.getD c default).n = (ycur.getD c default).n) ∧
    (∀ c, k < (ycur.getD c default).n →
      (ynext.getD c default).lane k = (ycur.getD c default).lane k) := by
  unfold permuteLane at h
  split at h
  · rename_i hK
    have hkk : k ≠ k' := fun he => by rw [he, hK] at hk; exact Bool.noConfusion hk
    obtain ⟨vals, h1, h⟩ := bindE_ok.mp h
    obtain rfl := Except.ok.inj h
    have hvl : ycur.length = vals.length := by
      rw [permLaneVals_length h1, List.length_range, hlen]
    obtain ⟨l1, n1, v1⟩ := zipWith_set_frame (fun v => v) (0 : ℚ) hkk ycur vals hvl
    exact ⟨l1.trans hlen, n1, v1⟩
  · obtain rfl := Except.ok.inj h
    exact ⟨hlen, fun c => rfl, fun c _ => rfl⟩

theorem foldlM_permuteLane_frame {x p : List RandomVariable} {flt : Filter} {k : Nat}
    (hk : flt.lane k = false) :
    ∀ (ks : List Nat) (ycur y2 : List RandomVariable),
      ks.foldlM (permuteLane x p flt) ycur = .ok y2 → ycur.length = x.length →
      (y2.length = x.length ∧
       (∀ c, (y2.getD c default).n = (ycur.getD c default).n) ∧
       (∀ c, k < (ycur.getD c default).n →
         (y2.getD c default).lane k = (ycur.getD c default).lane k)) := by
  intro ks
  induction ks with
  | nil =>
      intro ycur y2 h hlen
      rw [List.foldlM_nil] at h
      obtain rfl := Except.ok.inj h
      exact ⟨hlen, fun c => rfl, fun c _ => rfl⟩
  | cons k' kt ih =>
      intro ycur y2 h hlen
      rw [List.foldlM_cons] at h
      obtain ⟨ymid, h1, h⟩ := bindE_ok.mp h
      obtain ⟨l1, n1, v1⟩ := permuteLane_frame hk h1 hlen
      obtain ⟨L1, N1, V1⟩ := ih ymid y2 h l1
      refine ⟨L1, fun c => (N1 c).trans (n1 c), fun c hc => ?_⟩
      rw [V1 c ((n1 c).symm ▸ hc), v1 c hc]

/-- The SORT visitor only writes filter-true lanes: at any in-range lane on
which the active filter is false, every component of every context array keeps
its previous value. -/
theorem sortImpl_frame {xn : String} {yn pn : Option String} {st st' : EngineState}
    {flt : Filter} {k : Nat}
    (h : sortImpl xn yn pn st = .ok st') (hf : topFilter st = .ok flt)
    (hk : flt.lane k = false) :
    ∀ name c, k < arrN st name c → arrLaneQ st' name c k = arrLaneQ st name c k := by
  unfold sortImpl at h
  obtain ⟨x, h1, h⟩ := bindE_ok.mp h
  obtain ⟨yRead, h2, h⟩ := bindE_ok.mp h
  obtain ⟨p, h3, h⟩ := bindE_ok.mp h
  split at h
  case isFalse => exact Except.noConfusion h
  rename_i hx1
  split at h
  case isFalse => exact Except.noConfusion h
  rename_i hy1
  split at h
  case isFalse => exact Except.noConfusion h
  rename_i hp1
  split at h
  case isFalse => exact Except.noConfusion h
  rename_i hall
  obtain ⟨flt2, h4, h⟩ := bindE_ok.mp h
  rw [hf] at h4
  obtain rfl := Except.ok.inj h4
  split at h
  case isFalse => exact Except.noConfusion h
  rename_i hfn
  have hT := sortTargets_lookup h1 h2
  split at h
  · rename_i hpe
    obtain rfl := Except.ok.inj h
    intro name c hcn
    by_cases hname : name = (sortTargets x yRead xn yn).2
    · subst hname
      have hL := lookupArray_setNumArray_self
        ((List.range (x.headD default).n).foldl (sortLane x flt)
          (sortTargets x yRead xn yn).1) hT
      obtain ⟨e1, -⟩ := arrLaneQ_of_lookup hL c k
      obtain ⟨e3, e4⟩ := arrLaneQ_of_lookup hT c k
      rw [e1, e3]
      rw [e4] at hcn
      exact (foldl_sortLane_frame hk (List.range (x.headD default).n) _ hy1).2.2 c hcn
    · simp only [arrLaneQ, lookupArray_setNumArray_ne _ hname]
  · rename_i hpe
    have hpn : ∃ s, pn = some s := by
      cases pn with
      | some s => exact ⟨s, rfl⟩
      | none =>
          simp only [readOptArray] at h3
          obtain rfl := Except.ok.inj h3
          simp at hpe
    obtain ⟨s, rfl⟩ := hpn
    simp only [readOptArray] at h3
    simp only [Option.getD_some] at h
    obtain rfl := Except.ok.inj h
    have hP := getNumArray_lookup h3
    have hp2 : p.length = x.length := by
      cases hp1 with
      | inl h0 =>
          subst h0
          simp at hpe
      | inr h0 => exact h0
    intro name c hcn
    by_cases hnP : name = s
    · rw [hnP] at hcn ⊢
      have hsome : ∃ w, lookupArray
          (setNumArray st (sortTargets x yRead xn yn).2
            ((List.range (x.headD default).n).foldl (sortLaneP x flt)
              ((sortTargets x yRead xn yn).1, p)).1) s = some w := by
        by_cases hsT : s = (sortTargets x yRead xn yn).2
        · rw [hsT]
          exact ⟨_, lookupArray_setNumArray_self _ hT⟩
        · rw [lookupArray_setNumArray_ne _ hsT, hP]
          exact ⟨_, rfl⟩
      obtain ⟨w, hw⟩ := hsome
      have hL := lookupArray_setNumArray_self
        ((List.range (x.headD default).n).foldl (sortLaneP x flt)
          ((sortTargets x yRead xn yn).1, p)).2 hw
      obtain ⟨e1, -⟩ := arrLaneQ_of_lookup hL c k
      obtain ⟨e3, e4⟩ := arrLaneQ_of_lookup hP c k
      rw [e1, e3]
      rw [e4] at hcn
      exact (foldl_sortLaneP_frame hk (List.range (x.headD default).n)
        ((sortTargets x yRead xn yn).1, p) hy1 hp2).2.2.2.2.2 c hcn
    · have hL1 : lookupArray (setNumArray
          (setNumArray st (sortTargets x yRead xn yn).2
            ((List.range (x.headD default).n).foldl (sortLaneP x flt)
              ((sortTargets x yRead xn yn).1, p)).1) s
          ((List.range (x.headD default).n).foldl (sortLaneP x flt)
            ((sortTargets x yRead xn yn).1, p)).2) name
          = lookupArray (setNumArray st (sortTargets x yRead xn yn).2
            ((List.range (x.headD default).n).foldl (sortLaneP x flt)
              ((sortTargets x yRead xn yn).1, p)).1) name :=
        lookupArray_setNumArray_ne _ hnP
      by_cases hnT : name = (sortTargets x yRead xn yn).2
      · rw [hnT] at hcn hL1 ⊢
        have hL2 := lookupArray_setNumArray_self
          ((List.range (x.headD default).n).foldl (sortLaneP x flt)
            ((sortTargets x yRead xn yn).1, p)).1 hT
        rw [hL2] at hL1
        have e1 : arrLaneQ (setNumArray
            (setNumArray st (sortTargets x yRead xn yn).2
              ((List.range (x.headD default).n).foldl (sortLaneP x flt)
                ((sortTargets x yRead xn yn).1, p)).1) s
            ((List.range (x.headD default).n).foldl (sortLaneP x flt)
              ((sortTargets x yRead xn yn).1, p)).2) (sortTargets x yRead xn yn).2 c k
            = ((((List.range (x.headD default).n).foldl (sortLaneP x flt)
                ((sortTargets x yRead xn yn).1, p)).1).getD c default).lane k := by
          unfold arrLaneQ
          rw [hL1, Option.getD_some, getD_map_num]
          rfl
        obtain ⟨e3, e4⟩ := arrLaneQ_of_lookup hT c k
        rw [e1, e3]
        rw [e4] at hcn
        exact (foldl_sortLaneP_frame hk (List.range (x.headD default).n)
          ((sortTargets x yRead xn yn).1, p) hy1 hp2).2.2.2.2.1 c hcn
      · rw [lookupArray_setNumArray_ne _ hnT] at hL1
        simp only [arrLaneQ, hL1]

/-- The PERMUTE visitor only writes filter-true lanes: at any in-range lane on
which the active filter is false, every component of every context array keeps
its previous value. -/
theorem permuteImpl_frame {xn : String} {yn pn : Option String} {st st' : EngineState}
    {flt : Filter} {k : Nat}
    (h : permuteImpl xn yn pn st = .ok st') (hf : topFilter st = .ok flt)
    (hk : flt.lane k = false) :
    ∀ name c, k < arrN st name c → arrLaneQ st' name c k = arrLaneQ st name c k := by
  unfold permuteImpl at h
  obtain ⟨x, h1, h⟩ := bindE_ok.mp h
  obtain ⟨yRead, h2, h⟩ := bindE_ok.mp h
  obtain ⟨pRead, h3, h⟩ := bindE_ok.mp h
  split at h
  case isFalse => exact Except.noConfusion h
  rename_i hy1
  split at h
  case isFalse => exact Except.noConfusion h
  rename_i hp1
  split at h
  case isFalse => exact Except.noConfusion h
  rename_i hx1
  split at h
  case isFalse => exact Except.noConfusion h
  rename_i hall
  obtain ⟨flt2, h4, h⟩ := bindE_ok.mp h
  rw [hf] at h4
  obtain rfl := Except.ok.inj h4
  split at h
  case isFalse => exact Except.noConfusion h
  rename_i hfn
  obtain ⟨y2, h5, h⟩ := bindE_ok.mp h
  obtain rfl := Except.ok.inj h
  have hT := permTargets_lookup h1 h2 hy1 hx1
  intro name c hcn
  by_cases hname : name = (permTargets x yRead pRead xn yn).2.2
  · subst hname
    have hL := lookupArray_setNumArray_self y2 hT
    obtain ⟨e1, -⟩ := arrLaneQ_of_lookup hL c k
    obtain ⟨e3, e4⟩ := arrLaneQ_of_lookup hT c k
    rw [e1, e3]
    rw [e4] at hcn
    exact (foldlM_permuteLane_frame hk (List.range (x.headD default).n) _ y2 h5 hy1).2.2 c hcn
  · simp only [arrLaneQ, lookupArray_setNumArray_ne _ hname]

/-- Witness state for the SORT/PERMUTE frame property: one two-component
Number array under an all-false filter. -/
def wSSt : EngineState :=
  ⟨[], [("a", [.num (RandomVariable.det 2 3), .num (RandomVariable.det 2 1)])], [], [], [],
   [Filter.mkF 2 false], []⟩

/-- C10: SORT and PERMUTE write only to lanes where the active filter is true:
for every in-range lane `k` with `filter[k]` false, every component of the
target arrays (and of every other context array) retains its previous value,
and the per-lane PERMUTE body — including the bounds check on the permutation
entries — is skipped outright on such lanes. -/
theorem claim_C10 :
    (∀ (xn : String) (yn pn : Option String) (st st' : EngineState) (flt : Filter) (k : Nat),
        sortImpl xn yn pn st = .ok st' → topFilter st = .ok flt → flt.lane k = false →
        ∀ name c, k < arrN st name c → arrLaneQ st' name c k = arrLaneQ st name c k)
    ∧ (∀ (xn : String) (yn pn : Option String) (st st' : EngineState) (flt : Filter) (k : Nat),
        permuteImpl xn yn pn st = .ok st' → topFilter st = .ok flt → flt.lane k = false →
        ∀ name c, k < arrN st name c → arrLaneQ st' name c k = arrLaneQ st name c k)
    ∧ (∀ (x p : List RandomVariable) (flt : Filter) (ycur : List RandomVariable) (k : Nat),
        flt.lane k = false → permuteLane x p flt ycur k = .ok ycur) :=
  ⟨fun _ _ _ _ _ _ _ h hf hk => sortImpl_frame h hf hk,
   fun _ _ _ _ _ _ _ h hf hk => permuteImpl_frame h hf hk,
   fun _ _ _ _ _ hk => permuteLane_skip hk⟩

/-- Concrete instance of C10: sorting under an all-false filter leaves the
array bit-identical, and a PERMUTE lane whose filter entry is false succeeds
even though its permutation entry (99) is far out of bounds. -/
theorem claim_C10_witness :
    sortImpl "a" none none wSSt = .ok wSSt ∧
    arrLaneQ wSSt "a" 0 0 = arrLaneQ wSSt "a" 0 0 ∧
    permuteLane [RandomVariable.det 2 5] [RandomVariable.det 2 99]
      ⟨2, .inr [true, false]⟩ [RandomVariable.det 2 7] 1
      = .ok [RandomVariable.det 2 7] :=
  ⟨rfl,
   claim_C10.1 "a" none none wSSt wSSt (Filter.mkF 2 false) 0 rfl rfl rfl "a" 0 (by decide),
   claim_C10.2.2 [RandomVariable.det 2 5] [RandomVariable.det 2 99]
     ⟨2, .inr [true, false]⟩ [RandomVariable.det 2 7] 1 rfl⟩

end ORE
